import Mathlib

/-
  Verification of the runtool configuration expansion engine
  (gluon-ts-tools, package `runtool`).

  The development shallowly embeds the JSON-like value model and the
  operations of `runtool/runtool.py`, `runtool/datatypes.py`,
  `runtool/transformations.py`, `runtool/utils.py` and
  `runtool/recurse_config.py`.  Python exceptions are modelled by an
  explicit error type; recursion that is unbounded in Python (and there
  limited only by the interpreter stack) is modelled with an explicit
  fuel argument whose exhaustion corresponds to RecursionError.
-/

set_option maxHeartbeats 1000000
set_option maxRecDepth 4000

namespace Runtool

/-- JSON-like values manipulated by the configuration engine.  The
`versions` constructor mirrors the `Versions` container of
`recurse_config.py` (an ordered sequence of candidate values); `null`
is Python `None`. -/
inductive V where
  | null : V
  | b : Bool → V
  | i : Int → V
  | s : String → V
  | list : List V → V
  | dict : List (String × V) → V
  | versions : List V → V

/-- A Python mapping, in insertion order, with (by construction) unique keys. -/
abbrev Dict := List (String × V)

def V.isStr : V → Bool
  | V.s _ => true
  | _ => false

def V.isDict : V → Bool
  | V.dict _ => true
  | _ => false

def V.isVersions : V → Bool
  | V.versions _ => true
  | _ => false

/-- The list wrapped by a `Versions` value (junk on other values). -/
def V.versList : V → List V
  | V.versions xs => xs
  | _ => []

/-- First-match association lookup: Python `d[k]` / `d.get(k)` on a dict. -/
def dlookup : Dict → String → Option V
  | [], _ => none
  | (k1, v) :: rest, k => if k1 = k then some v else dlookup rest k

/-- Python `d[k] = v`: replaces the value in place if the key exists
(keeping its position), otherwise appends the pair. -/
def dset : Dict → String → V → Dict
  | [], k, v => [(k, v)]
  | (k1, v1) :: rest, k, v =>
      if k1 = k then (k1, v) :: rest else (k1, v1) :: dset rest k v

/-- Python `d.pop(k)` / key deletion: the dict without the given key. -/
def dremove : Dict → String → Dict
  | [], _ => []
  | (k1, v) :: rest, k =>
      if k1 = k then dremove rest k else (k1, v) :: dremove rest k

/-- Python `d.update(u)` applied to `d`: every entry of `u` is assigned
into `d` in order, so on conflicts the keys of `u` win. -/
def pyUpdate (d : Dict) (u : Dict) : Dict :=
  u.foldl (fun acc kv => dset acc kv.1 kv.2) d

/-- The Python exception classes raised (or caught) by the embedded code. -/
inductive ErrKind where
  | typeError
  | keyError
  | valueError
  | indexError
  | attributeError
  | assertionError
  | nameError
  | recursionError
deriving DecidableEq

/-- A raised Python exception: its class and its message. -/
structure PyErr where
  kind : ErrKind
  msg : String
deriving DecidableEq

/-- Python `data.get(key, default)`: on a mapping returns the stored
value or the default; on any other value raises AttributeError
(no `get` attribute). -/
def pyGet (v : V) (k : String) (default : V) : Except PyErr V :=
  match v with
  | V.dict d => .ok ((dlookup d k).getD default)
  | _ => .error ⟨.attributeError, "object has no attribute get"⟩

/-- `Algorithm.verify` (datatypes.py): the mapping must hold string
values under `image` and `instance`, and a mapping (or nothing) under
`hyperparameters`.  Evaluation is left to right with Python
short-circuiting. -/
def algorithmVerify (v : V) : Except PyErr Bool :=
  match pyGet v "image" V.null with
  | .error e => .error e
  | .ok img =>
    if img.isStr then
      match pyGet v "instance" V.null with
      | .error e => .error e
      | .ok inst =>
        if inst.isStr then
          match pyGet v "hyperparameters" (V.dict []) with
          | .error e => .error e
          | .ok hp => .ok hp.isDict
        else .ok false
    else .ok false

/-- `Dataset.verify` (datatypes.py): a mapping under `path` and a
mapping (or nothing) under `meta`. -/
def datasetVerify (v : V) : Except PyErr Bool :=
  match pyGet v "path" V.null with
  | .error e => .error e
  | .ok p =>
    if p.isDict then
      match pyGet v "meta" (V.dict []) with
      | .error e => .error e
      | .ok m => .ok m.isDict
    else .ok false

/-- `Experiment.verify` (datatypes.py): the value under `algorithm`
verifies as an Algorithm and the value under `dataset` verifies as a
Dataset (short-circuit, defaults are empty dicts). -/
def experimentVerify (v : V) : Except PyErr Bool :=
  match pyGet v "algorithm" (V.dict []) with
  | .error e => .error e
  | .ok a =>
    match algorithmVerify a with
    | .error e => .error e
    | .ok true =>
      match pyGet v "dataset" (V.dict []) with
      | .error e => .error e
      | .ok d => datasetVerify d
    | .ok false => .ok false

/-- `all(map(verify, data))` with short-circuiting, over the members of
a list node (each member a mapping). -/
def verifyAllD (f : V → Except PyErr Bool) : List Dict → Except PyErr Bool
  | [] => .ok true
  | d :: rest =>
    match f (V.dict d) with
    | .error e => .error e
    | .ok true => verifyAllD f rest
    | .ok false => .ok false

/-- Result of classifying a top-level mapping (`infer_type_dict`). -/
inductive DictClass where
  | algorithmC
  | datasetC
  | experimentC
  | unclassifiedDict
deriving DecidableEq

/-- Result of classifying a top-level sequence (`infer_type_list`). -/
inductive ListClass where
  | algorithmsC
  | datasetsC
  | experimentsC
  | unclassifiedList
deriving DecidableEq

/-- `infer_type_dict` (runtool.py): tries the classes in the order
`(Algorithm, Dataset, Experiment)`; the first whose `verify` returns
true wins, and a mapping matching none is passed through unchanged
(modelled by the `unclassifiedDict` tag: the mapping content is never
altered by classification). -/
def inferTypeDict (en : Dict) : Except PyErr DictClass :=
  match algorithmVerify (V.dict en) with
  | .error e => .error e
  | .ok true => .ok DictClass.algorithmC
  | .ok false =>
    match datasetVerify (V.dict en) with
    | .error e => .error e
    | .ok true => .ok DictClass.datasetC
    | .ok false =>
      match experimentVerify (V.dict en) with
      | .error e => .error e
      | .ok true => .ok DictClass.experimentC
      | .ok false => .ok DictClass.unclassifiedDict

/-- Collection verification (the `verify` classmethods of `Algorithms`,
`Datasets`, `Experiments`): `data and all(map(member_verify, data))`,
so an empty list is falsy and never verifies. -/
def listVerify (f : V → Except PyErr Bool) (l : List Dict) : Except PyErr Bool :=
  if l.isEmpty then .ok false else verifyAllD f l

/-- `infer_type_list` (runtool.py): tries the collection classes in the
order `(Algorithms, Datasets, Experiments)`; first match wins; a
sequence matching none is passed through unchanged. -/
def inferTypeList (l : List Dict) : Except PyErr ListClass :=
  match listVerify algorithmVerify l with
  | .error e => .error e
  | .ok true => .ok ListClass.algorithmsC
  | .ok false =>
    match listVerify datasetVerify l with
    | .error e => .error e
    | .ok true => .ok ListClass.datasetsC
    | .ok false =>
      match listVerify experimentVerify l with
      | .error e => .error e
      | .ok true => .ok ListClass.experimentsC
      | .ok false => .ok ListClass.unclassifiedList

/-! ### The typed node algebra of datatypes.py

Runtime objects of the classes `Node`, `Algorithm`, `Dataset`,
`Experiment` (mappings) and `ListNode`, `Algorithms`, `Datasets`,
`Experiments` (lists of mappings).  An object is its mapping content
plus its class tag; equality in Python (`Mapping.__eq__`,
`UserList.__eq__`) compares content only, which the embedding mirrors
by comparing the content lists.  Collection members are modelled by
their mapping content (the only thing the code ever inspects on a
member is its mapping structure, via the `verify` classmethods). -/

/-- Class tag of a single (mapping) node. -/
inductive NodeClass where
  | nodeC
  | algorithmC
  | datasetC
  | experimentC
deriving DecidableEq

/-- Class tag of a collection node. -/
inductive CollClass where
  | listNodeC
  | algorithmsC
  | datasetsC
  | experimentsC
deriving DecidableEq

/-- A runtime object of the node algebra. -/
inductive Obj where
  | single : NodeClass → Dict → Obj
  | coll : CollClass → List Dict → Obj

/-- The `result_type` class attribute of `Node` and its subclasses:
the collection class produced by `__add__`. -/
def resultType : NodeClass → CollClass
  | NodeClass.nodeC => CollClass.listNodeC
  | NodeClass.algorithmC => CollClass.algorithmsC
  | NodeClass.datasetC => CollClass.datasetsC
  | NodeClass.experimentC => CollClass.experimentsC

/-- `isinstance(other, type(self))` for single nodes: every single node
is a `Node`, while the three leaf classes only accept their own class. -/
def nodeIsinstOf (self other : NodeClass) : Bool :=
  match self with
  | NodeClass.nodeC => true
  | _ => other = self

/-- `isinstance(other, C)` for collection classes: every collection is
a `ListNode`, while the three leaf classes only accept their own class. -/
def collIsinstOf (self other : CollClass) : Bool :=
  match self with
  | CollClass.listNodeC => true
  | _ => other = self

/-- The mapping content of `Experiment({"algorithm": a, "dataset": d})`. -/
def expPair (a d : Dict) : Dict :=
  [("algorithm", V.dict a), ("dataset", V.dict d)]

/-- `Experiment.__init__`: verify the mapping, raising TypeError when it
does not hold a valid algorithm and dataset. -/
def mkExperiment (d : Dict) : Except PyErr Dict :=
  match experimentVerify (V.dict d) with
  | .error e => .error e
  | .ok true => .ok d
  | .ok false =>
      .error ⟨.typeError,
        "An Experiment requires a dict containing a valid Dataset and an Algorithm"⟩

/-- `Experiment.from_nodes`: try `(algorithm := n1, dataset := n2)`,
catch TypeError and try the swapped assignment, and raise TypeError when
both fail.  Exceptions other than TypeError propagate. -/
def fromNodes (n1 n2 : Dict) : Except PyErr Dict :=
  match mkExperiment (expPair n1 n2) with
  | .ok e => .ok e
  | .error e1 =>
    if e1.kind = ErrKind.typeError then
      match mkExperiment (expPair n2 n1) with
      | .ok e => .ok e
      | .error e2 =>
        if e2.kind = ErrKind.typeError then
          .error ⟨.typeError, "An Experiment requires one Dataset and one Algorithm"⟩
        else .error e2
    else .error e1

/-- The `verify` step performed by the constructor of each collection
class (`ListNode` itself has no verification). -/
def collVerify : CollClass → List Dict → Except PyErr Bool
  | CollClass.listNodeC, _ => .ok true
  | CollClass.algorithmsC, l => listVerify algorithmVerify l
  | CollClass.datasetsC, l => listVerify datasetVerify l
  | CollClass.experimentsC, l => listVerify experimentVerify l

/-- Constructing a collection object: the constructors of `Algorithms`,
`Datasets` and `Experiments` raise TypeError (with no message) when
`verify` is falsy. -/
def mkColl (c : CollClass) (l : List Dict) : Except PyErr Obj :=
  match collVerify c l with
  | .error e => .error e
  | .ok true => .ok (Obj.coll c l)
  | .ok false => .error ⟨.typeError, ""⟩

/-- Short-hand for the `Experiments` constructor. -/
def mkExperiments (l : List Dict) : Except PyErr Obj :=
  mkColl CollClass.experimentsC l

/-- `[Experiment.from_nodes(d1, item) for item in l2]`: the right-hand
operand varies. -/
def fromNodesRow (d1 : Dict) : List Dict → Except PyErr (List Dict)
  | [] => .ok []
  | d2 :: rest =>
    match fromNodes d1 d2 with
    | .error e => .error e
    | .ok e1 =>
      match fromNodesRow d1 rest with
      | .error e => .error e
      | .ok es => .ok (e1 :: es)

/-- `[Experiment.from_nodes(item, d2) for item in l1]`: the left-hand
operand varies. -/
def fromNodesCol : List Dict → Dict → Except PyErr (List Dict)
  | [], _ => .ok []
  | d1 :: rest, d2 =>
    match fromNodes d1 d2 with
    | .error e => .error e
    | .ok e1 =>
      match fromNodesCol rest d2 with
      | .error e => .error e
      | .ok es => .ok (e1 :: es)

/-- `[from_nodes(n1, n2) for n1 in l1 for n2 in l2]`: nested loop with
the left operand outermost, results in encounter order. -/
def fromNodesProd : List Dict → List Dict → Except PyErr (List Dict)
  | [], _ => .ok []
  | d1 :: rest, l2 =>
    match fromNodesRow d1 l2 with
    | .error e => .error e
    | .ok row =>
      match fromNodesProd rest l2 with
      | .error e => .error e
      | .ok more => .ok (row ++ more)

/-- `__mul__` dispatch of the node algebra.  `Experiment` and
`Experiments` set `__mul__ = None`, so using them on the left raises
TypeError (unsupported operand).  `Node.__mul__` accepts a `Node` or any
`ListNode` on the right; `ListNode.__mul__` accepts any `ListNode`
except `Experiments` (which falls through to TypeError) or any `Node`. -/
def mulObj : Obj → Obj → Except PyErr Obj
  | Obj.single c d1, other =>
    if c = NodeClass.experimentC then
      .error ⟨.typeError, "unsupported operand type"⟩
    else
      match other with
      | Obj.single _ d2 =>
        match fromNodes d1 d2 with
        | .error e => .error e
        | .ok e1 => mkExperiments [e1]
      | Obj.coll _ l2 =>
        match fromNodesRow d1 l2 with
        | .error e => .error e
        | .ok es => mkExperiments es
  | Obj.coll c l1, other =>
    if c = CollClass.experimentsC then
      .error ⟨.typeError, "unsupported operand type"⟩
    else
      match other with
      | Obj.coll c2 l2 =>
        if c2 = CollClass.experimentsC then
          .error ⟨.typeError, "unable to multiply"⟩
        else
          match fromNodesProd l1 l2 with
          | .error e => .error e
          | .ok es => mkExperiments es
      | Obj.single _ d2 =>
        match fromNodesCol l1 d2 with
        | .error e => .error e
        | .ok es => mkExperiments es

/-- `ListNode.__add__`: a collection of the same class (any collection,
for a plain `ListNode`) concatenates; a single node is appended; other
operands raise TypeError. -/
def addColl (c : CollClass) (l : List Dict) (other : Obj) : Except PyErr Obj :=
  match other with
  | Obj.coll c2 l2 =>
    if collIsinstOf c c2 then mkColl c (l ++ l2) else .error ⟨.typeError, ""⟩
  | Obj.single _ d2 => mkColl c (l ++ [d2])

/-- `__add__` dispatch of the node algebra.  `Node.__add__` combines two
nodes of the same class into `result_type([self, other])`, prepends the
node when the right operand is already a collection of the result type,
and raises TypeError otherwise. -/
def addObj : Obj → Obj → Except PyErr Obj
  | Obj.coll c l, other => addColl c l other
  | Obj.single c d, other =>
    match other with
    | Obj.single c2 d2 =>
      if nodeIsinstOf c c2 then mkColl (resultType c) [d, d2]
      else .error ⟨.typeError, ""⟩
    | Obj.coll c2 l2 =>
      if collIsinstOf (resultType c) c2 then
        match mkColl (resultType c) [d] with
        | .error e => .error e
        | .ok _ => addColl (resultType c) [d] (Obj.coll c2 l2)
      else .error ⟨.typeError, ""⟩

/-! ### utils.py -/

/-- `update_nested_dict(data, to_update)` (utils.py), value semantics:
iterate the overlay entries; when both the current value of `data` and
the incoming value are mappings recurse, when only `data` is a mapping
assign, and when `data` is not a mapping replace it by a fresh
single-entry mapping.  The fuel bounds the recursion depth (Python:
interpreter stack); `none` is RecursionError. -/
def updateNestedDict : Nat → V → Dict → Option V
  | 0, _, _ => none
  | _ + 1, data, [] => some data
  | fuel + 1, data, (key, value) :: rest =>
    match data, value with
    | V.dict d, V.dict u =>
      match updateNestedDict fuel ((dlookup d key).getD (V.dict [])) u with
      | none => none
      | some sub => updateNestedDict fuel (V.dict (dset d key sub)) rest
    | V.dict d, _ => updateNestedDict fuel (V.dict (dset d key value)) rest
    | _, _ => updateNestedDict fuel (V.dict [(key, value)]) rest

/-- Parse a non-empty run of decimal digits. -/
def parseNat (ds : List Char) : Option Nat :=
  if ds.isEmpty then none
  else if ds.all Char.isDigit then
    some (ds.foldl (fun acc c => acc * 10 + (c.toNat - 48)) 0)
  else none

/-- Python `int(key)` for subscripting: decimal digits with an optional
leading minus sign; anything else raises ValueError (modelled as
`none`). -/
def strToInt (key : String) : Option Int :=
  match key.data with
  | '-' :: rest => (parseNat rest).map (fun n => -(n : Int))
  | ds => (parseNat ds).map (fun n => (n : Int))

/-- `s.split(".")` on a dot-separated path: the chunks between dots, in
order (an empty string yields one empty chunk, as in Python). -/
def splitDotGo : List Char → List Char → List String
  | [], acc => [String.mk acc.reverse]
  | c :: rest, acc =>
    if c = '.' then String.mk acc.reverse :: splitDotGo rest []
    else splitDotGo rest (c :: acc)

/-- Split a path string on dots. -/
def splitDot (s : String) : List String :=
  splitDotGo s.data []

/-- Left-to-right, non-overlapping replacement of a non-empty pattern
(Python `str.replace`); the fuel is the length of the scanned text. -/
def replaceF (pat rep : List Char) : Nat → List Char → List Char
  | 0, s => s
  | _ + 1, [] => []
  | n + 1, c :: rest =>
    if pat.isPrefixOf (c :: rest) then
      rep ++ replaceF pat rep n ((c :: rest).drop pat.length)
    else c :: replaceF pat rep n rest

/-- Python `s.replace(pat, rep)` for a non-empty pattern. -/
def pyReplace (s pat rep : String) : String :=
  String.mk (replaceF pat.data rep.data s.data.length s.data)

/-- Python sequence subscripting with an integer index, including
negative indices; out of range raises IndexError. -/
def pyIndex (xs : List V) (idx : Int) : Except PyErr V :=
  let j : Int := if idx < 0 then (xs.length : Int) + idx else idx
  if h : 0 ≤ j ∧ j < (xs.length : Int) then
    .ok (xs.get ⟨j.toNat, by omega⟩)
  else .error ⟨.indexError, "list index out of range"⟩

/-- One step of `get_item_from_path` (utils.py): `data[key]`, and on
TypeError `data[int(key)]`.  A mapping raises KeyError for a missing
key (not caught); a sequence subscripts by the integer value of the key
(ValueError when the key is not numeric); any other value is not
subscriptable. -/
def getItem (data : V) (key : String) : Except PyErr V :=
  match data with
  | V.dict d =>
    match dlookup d key with
    | some v => .ok v
    | none => .error ⟨.keyError, key⟩
  | V.list xs =>
    match strToInt key with
    | none => .error ⟨.valueError, "invalid literal for int"⟩
    | some idx => pyIndex xs idx
  | V.versions xs =>
    match strToInt key with
    | none => .error ⟨.valueError, "invalid literal for int"⟩
    | some idx => pyIndex xs idx
  | _ =>
    match strToInt key with
    | none => .error ⟨.valueError, "invalid literal for int"⟩
    | some _ => .error ⟨.typeError, "object is not subscriptable"⟩

/-- Fold of `getItem` over the keys of a dotted path. -/
def getItemSteps : V → List String → Except PyErr V
  | data, [] => .ok data
  | data, k :: rest =>
    match getItem data k with
    | .error e => .error e
    | .ok d2 => getItemSteps d2 rest

/-- `get_item_from_path(data, path)` (utils.py): traverse the value
along the dot-separated path. -/
def getItemFromPath (data : V) (path : String) : Except PyErr V :=
  getItemSteps data (splitDot path)

/-! ### recurse_config.py -/

/-- `itertools.product` over a list of choice lists (rightmost position
varies fastest), returning the tuples in order. -/
def cartProd : List (List α) → List (List α)
  | [] => [[]]
  | xs :: rest => (xs.map (fun x => (cartProd rest).map (fun t => x :: t))).flatten

/-- Error-propagating map over a list (a Python comprehension whose body
may raise). -/
def exMapList (g : α → Except PyErr β) : List α → Except PyErr (List β)
  | [] => .ok []
  | x :: rest =>
    match g x with
    | .error e => .error e
    | .ok y =>
      match exMapList g rest with
      | .error e => .error e
      | .ok ys => .ok (y :: ys)

/-- Error-propagating map of a function over the values of a dict,
keeping the keys (the child-recursion loop of `recursive_apply_dict`). -/
def exMapPairs (g : V → Except PyErr V) : Dict → Except PyErr Dict
  | [] => .ok []
  | (k, v) :: rest =>
    match g v with
    | .error e => .error e
    | .ok c =>
      match exMapPairs g rest with
      | .error e => .error e
      | .ok cs => .ok ((k, c) :: cs)

/-- `recursive_apply(node, fn)` (recurse_config.py).  Mapping nodes:
recurse into every value; children that became `Versions` are expanded
by cartesian product (preserving key association), each concrete
mapping merged with the non-multi-valued children and passed to `fn`;
when every per-combination result is itself a `Versions` the results
are flattened through `Versions(list(*product(*new_node)))`, which in
Python only succeeds when the product has at most one tuple (otherwise
`list` raises TypeError).  Sequence nodes: recurse positionally and
expand `Versions` children by cartesian product with indices fixed,
never applying `fn`.  Scalars (and `Versions` values, handled by the
singledispatch base case) are returned unchanged.  The fuel bounds the
recursion depth. -/
def recursiveApplyE (fn : V → Except PyErr V) : Nat → V → Except PyErr V
  | 0, _ => .error ⟨.recursionError, "maximum recursion depth exceeded"⟩
  | fuel + 1, V.dict en =>
    match exMapPairs (fun v => recursiveApplyE fn fuel v) en with
    | .error e => .error e
    | .ok pairs =>
      let expanded :=
        (pairs.filter (fun p => p.2.isVersions)).map
          (fun p => p.2.versList.map (fun v => (p.1, v)))
      let newNode := pairs.filter (fun p => !p.2.isVersions)
      if expanded.isEmpty then fn (V.dict newNode)
      else
        match exMapList (fun combo => fn (V.dict (pyUpdate combo newNode)))
            (cartProd expanded) with
        | .error e => .error e
        | .ok results =>
          if results.all V.isVersions then
            match cartProd (results.map V.versList) with
            | [] => .ok (V.versions [])
            | [t] => .ok (V.versions t)
            | _ => .error ⟨.typeError, "list expected at most 1 argument"⟩
          else .ok (V.versions results)
  | fuel + 1, V.list xs =>
    match exMapList (fun v => recursiveApplyE fn fuel v) xs with
    | .error e => .error e
    | .ok children =>
      let vchildren := children.enum.filter (fun p => p.2.isVersions)
      if vchildren.isEmpty then .ok (V.list children)
      else
        let choices := vchildren.map (fun p => p.2.versList.map (fun v => (p.1, v)))
        .ok (V.versions ((cartProd choices).map
          (fun combo => V.list (combo.foldl (fun acc iv => acc.set iv.1 iv.2) children))))
  | _ + 1, node => .ok node

/-! ### transformations.py -/

/-- `apply_from(node, context)` (transformations.py): on a mapping
holding `$from`, pop the path, fetch the source from the context, first
resolve any `$from` inside the source recursively (chained
inheritance), assert that the result is a mapping (an `assert`
statement raises AssertionError, not TypeError), and deep-merge the
remaining node into it with `update_nested_dict`. -/
def applyFromF (ctx : V) : Nat → V → Except PyErr V
  | 0, _ => .error ⟨.recursionError, "maximum recursion depth exceeded"⟩
  | fuel + 1, node =>
    match node with
    | V.dict en =>
      match dlookup en "$from" with
      | none => .ok node
      | some pv =>
        match pv with
        | V.s p =>
          match getItemFromPath ctx p with
          | .error e => .error e
          | .ok src =>
            match recursiveApplyE (fun v => applyFromF ctx fuel v) fuel src with
            | .error e => .error e
            | .ok src2 =>
              match src2 with
              | V.dict _ =>
                match updateNestedDict fuel src2 (dremove en "$from") with
                | some r => .ok r
                | none => .error ⟨.recursionError, "maximum recursion depth exceeded"⟩
              | _ => .error ⟨.assertionError, "$from can only be used to inherit from a dict"⟩
        | _ => .error ⟨.attributeError, "object has no attribute split"⟩
    | _ => .ok node

/-- The TypeError raised by `apply_each` when a plain scalar item is
used while the node still has keys besides `$each`. -/
def eachScalarErr : PyErr :=
  ⟨.typeError,
   "Using $each in a non-empty node is only supported when using dictionaries or with the $None operator"⟩

/-- The loop body of `apply_each`: one entry per item of the `$each`
list, where `rest` is the node with `$each` removed. -/
def eachGo (rest : Dict) : List V → Except PyErr (List V)
  | [] => .ok []
  | item :: items =>
    match item with
    | V.s str =>
      if str = "$None" then
        match eachGo rest items with
        | .error e => .error e
        | .ok vs => .ok (V.dict rest :: vs)
      else if rest.isEmpty then
        match eachGo rest items with
        | .error e => .error e
        | .ok vs => .ok (V.s str :: vs)
      else .error eachScalarErr
    | V.dict d =>
      match eachGo rest items with
      | .error e => .error e
      | .ok vs => .ok (V.dict (pyUpdate d rest) :: vs)
    | other =>
      if rest.isEmpty then
        match eachGo rest items with
        | .error e => .error e
        | .ok vs => .ok (other :: vs)
      else .error eachScalarErr

/-- `apply_each(node)` (transformations.py): a mapping with `$each`
becomes a `Versions` holding one entry per item; the sentinel `$None`
yields the node without `$each`, a mapping item is shallow-merged with
the node (node keys win), and a plain scalar is only legal when the
node has no other keys. -/
def applyEach (node : V) : Except PyErr V :=
  match node with
  | V.dict en =>
    match dlookup en "$each" with
    | none => .ok node
    | some eachV =>
      let rest := dremove en "$each"
      match eachV with
      | V.list items =>
        match eachGo rest items with
        | .error e => .error e
        | .ok vs => .ok (V.versions vs)
      | _ => .error ⟨.typeError, "$each requires a list"⟩
  | _ => .ok node

/-- Python `repr` of a value (fuel-bounded in the containers). -/
def pyRepr : Nat → V → String
  | _, V.null => "None"
  | _, V.b true => "True"
  | _, V.b false => "False"
  | _, V.i n => toString n
  | _, V.s str => "\x27" ++ str ++ "\x27"
  | 0, _ => ""
  | fuel + 1, V.list xs =>
      "[" ++ String.intercalate ", " (xs.map (pyRepr fuel)) ++ "]"
  | fuel + 1, V.dict en =>
      "\x7b" ++ String.intercalate ", "
        (en.map (fun p => "\x27" ++ p.1 ++ "\x27: " ++ pyRepr fuel p.2)) ++ "\x7d"
  | fuel + 1, V.versions xs =>
      "Versions([" ++ String.intercalate ", " (xs.map (pyRepr fuel)) ++ "])"

/-- Python `str` of a value: identity on strings, `repr` otherwise. -/
def pyStr (v : V) : String :=
  match v with
  | V.s str => str
  | _ => pyRepr 1000 v

/-- Whether the pattern occurs as a substring. -/
def containsAux (pat : List Char) : List Char → Bool
  | [] => pat.isEmpty
  | c :: rest => pat.isPrefixOf (c :: rest) || containsAux pat rest

/-- Python `pat in str`: substring containment. -/
def strContains (str pat : String) : Bool :=
  containsAux pat.data str.data

/-- `apply_eval(node, locals)` (transformations.py), with the two parts
of the function that execute arbitrary Python kept abstract: `su` is
the `$.`-reference substitution loop (regular expressions over the
locals) and `ev` is `evaluate` (the builtin `eval`).  The embedded part
is the control flow of the function: replace `$trial` by `__trial__`,
substitute, evaluate, recurse into the evaluation result, and in the
`except NameError` handler return the node as an `$eval` marker holding
the substituted text when the message mentions `__trial__`, re-raising
every other error. -/
def applyEvalF (su : String → String) (ev : String → Except PyErr V) :
    Nat → V → Except PyErr V
  | 0, _ => .error ⟨.recursionError, "maximum recursion depth exceeded"⟩
  | fuel + 1, node =>
    match node with
    | V.dict en =>
      match dlookup en "$eval" with
      | none => .ok node
      | some ev0 =>
        if en.length ≠ 1 then .error ⟨.assertionError, "$eval needs to be only value"⟩
        else
          let text := su (pyReplace (pyStr ev0) "$trial" "__trial__")
          match ev text with
          | .ok v => applyEvalF su ev fuel v
          | .error e =>
            if e.kind = ErrKind.nameError ∧ strContains e.msg "__trial__" then
              .ok (V.dict [("$eval", V.s text)])
            else .error e
    | _ => .ok node

/-! ### generate_versions (runtool.py) -/

/-- `result[key].append(value)` on a `defaultdict(Versions)`: a new key
is appended at the end with a fresh singleton, an existing key has the
value appended in place. -/
def gvStep (acc : List (String × List V)) (k : String) (v : V) :
    List (String × List V) :=
  match acc with
  | [] => [(k, [v])]
  | (k1, vs) :: rest =>
    if k1 = k then (k1, vs ++ [v]) :: rest else (k1, vs) :: gvStep rest k v

/-- Inner loop of `generate_versions`: fold one document. -/
def gvDoc : List (String × List V) → Dict → List (String × List V)
  | acc, [] => acc
  | acc, (k, v) :: rest => gvDoc (gvStep acc k v) rest

/-- Outer loop of `generate_versions`: fold all documents in order. -/
def gvDocs : List (String × List V) → List Dict → List (String × List V)
  | acc, [] => acc
  | acc, doc :: docs => gvDocs (gvDoc acc doc) docs

/-- `generate_versions(data)` (runtool.py): one dict mapping each key to
the `Versions` of its values, one per document holding the key, in
document order.  Every value is a `Versions` object, also when only a
single document supplied the key. -/
def generateVersions (docs : List Dict) : Dict :=
  (gvDocs [] docs).map (fun p => (p.1, V.versions p.2))

/-- `Versions.__repr__` (recurse_config.py), with the element `repr`
abstract: a length-one `Versions` prints as its sole element, anything
else as `Versions([...])`. -/
def versionsRepr (r : V → String) (vs : List V) : String :=
  if vs.length = 1 then r (vs.headD V.null)
  else "Versions([" ++ String.intercalate ", " (vs.map r) ++ "])"

/-! ### Heap model for the in-place behaviour of update_nested_dict

Python dicts are mutable objects; to settle the frame claims the dict
graph is modelled as a heap of mapping objects addressed by index, with
`ref a` a pointer to the mapping at address `a` and `num`/`str` the
immutable scalars. -/

/-- A heap value: a scalar or a pointer to a mapping object. -/
inductive HV where
  | num : Int → HV
  | str : String → HV
  | ref : Nat → HV
deriving DecidableEq

/-- A mapping object: entries in insertion order. -/
abbrev HDict := List (String × HV)

/-- The heap: mapping objects addressed by position. -/
abbrev Heap := List HDict

def hget (h : Heap) (a : Nat) : Option HDict :=
  h.get? a

def hset (h : Heap) (a : Nat) (d : HDict) : Heap :=
  h.set a d

def hdlookup : HDict → String → Option HV
  | [], _ => none
  | (k1, v) :: rest, k => if k1 = k then some v else hdlookup rest k

def hdset : HDict → String → HV → HDict
  | [], k, v => [(k, v)]
  | (k1, v1) :: rest, k, v =>
      if k1 = k then (k1, v) :: rest else (k1, v1) :: hdset rest k v

/-- `update_nested_dict(data, to_update)` on the heap, iterating a
snapshot of the overlay entries: when `data` points to a mapping the
mapping is mutated through the pointer (`data[key] = ...`), and when
`data` is not a mapping it is replaced by a freshly allocated
single-entry mapping.  The function returns the final heap together
with the returned value.  Fuel exhaustion (`none`) is RecursionError. -/
def unh : Nat → Heap → HV → List (String × HV) → Option (Heap × HV)
  | 0, _, _, _ => none
  | _ + 1, h, data, [] => some (h, data)
  | fuel + 1, h, data, (key, value) :: rest =>
    match data with
    | HV.ref dAddr =>
      match hget h dAddr with
      | none => none
      | some d =>
        match value with
        | HV.ref vAddr =>
          let base := hdlookup d key
          let h1 := match base with
            | some _ => h
            | none => h ++ [[]]
          let baseV := match base with
            | some bv => bv
            | none => HV.ref h.length
          match hget h1 vAddr with
          | none => none
          | some ventries =>
            match unh fuel h1 baseV ventries with
            | none => none
            | some (h2, res) =>
              match hget h2 dAddr with
              | none => none
              | some d2 => unh fuel (hset h2 dAddr (hdset d2 key res)) data rest
        | _ => unh fuel (hset h dAddr (hdset d key value)) data rest
    | _ => unh fuel (h ++ [[(key, value)]]) (HV.ref h.length) rest

/-- Entry point of the heap-level `update_nested_dict`: read the overlay
object and run the loop. -/
def updateNestedDictH (fuel : Nat) (h : Heap) (data : HV) (upd : Nat) :
    Option (Heap × HV) :=
  match hget h upd with
  | none => none
  | some entries => unh fuel h data entries

/-! ### Statement vocabulary -/

/-- Key lookup on a value when it is a mapping (used to state properties
of merge results). -/
def vlookup : V → String → Option V
  | V.dict d, k => dlookup d k
  | _, _ => none

/-- The entry produced by `apply_each` for one item of the `$each` list
(`rest` is the node without `$each`): the `$None` sentinel yields the
node, a mapping is shallow-merged with the node keys winning, and any
other value stands for itself. -/
def eachEntry (rest : Dict) : V → V
  | V.s str => if str = "$None" then V.dict rest else V.s str
  | V.dict d => V.dict (pyUpdate d rest)
  | other => other

/-- Whether an item of the `$each` list is legal for a node whose
remaining keys are `rest`: the sentinel and mappings always are, other
values only when the node has no keys besides `$each`. -/
def eachLegal (rest : Dict) : V → Bool
  | V.s str => (str = "$None") || rest.isEmpty
  | V.dict _ => true
  | _ => rest.isEmpty

/-- Lookup on the accumulator of `generate_versions`. -/
def lvlookup : List (String × List V) → String → Option (List V)
  | [], _ => none
  | (k1, vs) :: rest, k => if k1 = k then some vs else lvlookup rest k

/-! ## Theorems -/

/-- On a mapping, `Algorithm.verify` never raises. -/
theorem algorithmVerify_dict_total (d : Dict) :
    ∃ bv, algorithmVerify (V.dict d) = .ok bv := by
  simp only [algorithmVerify, pyGet]
  repeat' split
  all_goals exact ⟨_, rfl⟩

/-- On a mapping, `Dataset.verify` never raises. -/
theorem datasetVerify_dict_total (d : Dict) :
    ∃ bv, datasetVerify (V.dict d) = .ok bv := by
  simp only [datasetVerify, pyGet]
  repeat' split
  all_goals exact ⟨_, rfl⟩

/-- C1: the claimed classification priority is wrong on the code.  The
mapping below satisfies both the Experiment and the Algorithm
invariants, and `infer_type_dict` classifies it as an Algorithm, not an
Experiment: the loop in the code tries `(Algorithm, Dataset,
Experiment)`, not `(Experiment, Algorithm, Dataset)`. -/
theorem c1_counterexample :
    experimentVerify (V.dict [("image", V.s ""), ("instance", V.s ""),
      ("algorithm", V.dict [("image", V.s "a"), ("instance", V.s "a")]),
      ("dataset", V.dict [("path", V.dict [])])]) = .ok true ∧
    algorithmVerify (V.dict [("image", V.s ""), ("instance", V.s ""),
      ("algorithm", V.dict [("image", V.s "a"), ("instance", V.s "a")]),
      ("dataset", V.dict [("path", V.dict [])])]) = .ok true ∧
    inferTypeDict [("image", V.s ""), ("instance", V.s ""),
      ("algorithm", V.dict [("image", V.s "a"), ("instance", V.s "a")]),
      ("dataset", V.dict [("path", V.dict [])])] = .ok DictClass.algorithmC ∧
    DictClass.algorithmC ≠ DictClass.experimentC :=
  ⟨rfl, rfl, rfl, by decide⟩

/-- C1 (amended): classification tries the types in the fixed priority
order of the code: a mapping is tested against Algorithm, then Dataset,
then Experiment, and a sequence against Algorithms, then Datasets, then
Experiments; the first structural match wins, and a node matching none
is passed through unclassified. -/
theorem c1_classification_priority :
    (∀ en : Dict, algorithmVerify (V.dict en) = .ok true →
      inferTypeDict en = .ok DictClass.algorithmC) ∧
    (∀ en : Dict, algorithmVerify (V.dict en) = .ok false →
      datasetVerify (V.dict en) = .ok true →
      inferTypeDict en = .ok DictClass.datasetC) ∧
    (∀ en : Dict, algorithmVerify (V.dict en) = .ok false →
      datasetVerify (V.dict en) = .ok false →
      experimentVerify (V.dict en) = .ok true →
      inferTypeDict en = .ok DictClass.experimentC) ∧
    (∀ en : Dict, algorithmVerify (V.dict en) = .ok false →
      datasetVerify (V.dict en) = .ok false →
      experimentVerify (V.dict en) = .ok false →
      inferTypeDict en = .ok DictClass.unclassifiedDict) ∧
    (∀ l : List Dict, listVerify algorithmVerify l = .ok true →
      inferTypeList l = .ok ListClass.algorithmsC) ∧
    (∀ l : List Dict, listVerify algorithmVerify l = .ok false →
      listVerify datasetVerify l = .ok true →
      inferTypeList l = .ok ListClass.datasetsC) ∧
    (∀ l : List Dict, listVerify algorithmVerify l = .ok false →
      listVerify datasetVerify l = .ok false →
      listVerify experimentVerify l = .ok true →
      inferTypeList l = .ok ListClass.experimentsC) ∧
    (∀ l : List Dict, listVerify algorithmVerify l = .ok false →
      listVerify datasetVerify l = .ok false →
      listVerify experimentVerify l = .ok false →
      inferTypeList l = .ok ListClass.unclassifiedList) := by
  refine ⟨?_, ?_, ?_, ?_, ?_, ?_, ?_, ?_⟩
  · intro en h1
    unfold inferTypeDict
    rw [h1]
  · intro en h1 h2
    unfold inferTypeDict
    rw [h1, h2]
  · intro en h1 h2 h3
    unfold inferTypeDict
    rw [h1, h2, h3]
  · intro en h1 h2 h3
    unfold inferTypeDict
    rw [h1, h2, h3]
  · intro l h1
    unfold inferTypeList
    rw [h1]
  · intro l h1 h2
    unfold inferTypeList
    rw [h1, h2]
  · intro l h1 h2 h3
    unfold inferTypeList
    rw [h1, h2, h3]
  · intro l h1 h2 h3
    unfold inferTypeList
    rw [h1, h2, h3]

/-- C1 witness: a concrete mapping holding the Algorithm structure is
classified as an Algorithm. -/
theorem c1_classification_priority_witness :
    inferTypeDict [("image", V.s "img"), ("instance", V.s "inst")] =
      .ok DictClass.algorithmC :=
  c1_classification_priority.1 [("image", V.s "img"), ("instance", V.s "inst")] rfl

/-- `Experiment.verify` on the mapping built by `from_nodes`, expressed
through the verifications of its two components. -/
theorem experimentVerify_expPair (x y : Dict) :
    experimentVerify (V.dict (expPair x y)) =
      match algorithmVerify (V.dict x) with
      | .error e => .error e
      | .ok true => datasetVerify (V.dict y)
      | .ok false => .ok false := rfl

/-- A valid algorithm and a valid dataset assemble into a verified
experiment mapping. -/
theorem experimentVerify_expPair_ok {a d : Dict}
    (ha : algorithmVerify (V.dict a) = .ok true)
    (hd : datasetVerify (V.dict d) = .ok true) :
    experimentVerify (V.dict (expPair a d)) = .ok true := by
  rw [experimentVerify_expPair, ha]
  exact hd

/-- The `Experiment` constructor succeeds exactly on verified mappings. -/
theorem mkExperiment_ok {d : Dict} (h : experimentVerify (V.dict d) = .ok true) :
    mkExperiment d = .ok d := by
  unfold mkExperiment
  rw [h]

/-- The `Experiment` constructor raises TypeError on unverified mappings. -/
theorem mkExperiment_fail {d : Dict} (h : experimentVerify (V.dict d) = .ok false) :
    mkExperiment d =
      .error ⟨.typeError,
        "An Experiment requires a dict containing a valid Dataset and an Algorithm"⟩ := by
  unfold mkExperiment
  rw [h]

/-- `from_nodes` succeeds on its first attempt when the left node is a
valid algorithm and the right one a valid dataset. -/
theorem fromNodes_ok {a d : Dict}
    (ha : algorithmVerify (V.dict a) = .ok true)
    (hd : datasetVerify (V.dict d) = .ok true) :
    fromNodes a d = .ok (expPair a d) := by
  unfold fromNodes
  rw [mkExperiment_ok (experimentVerify_expPair_ok ha hd)]

/-- `from_nodes` raises TypeError when neither operand verifies as a
dataset. -/
theorem fromNodes_fail_ds {n1 n2 : Dict}
    (h1 : datasetVerify (V.dict n1) = .ok false)
    (h2 : datasetVerify (V.dict n2) = .ok false) :
    fromNodes n1 n2 =
      .error ⟨.typeError, "An Experiment requires one Dataset and one Algorithm"⟩ := by
  have hv1 : experimentVerify (V.dict (expPair n1 n2)) = .ok false := by
    rw [experimentVerify_expPair]
    obtain ⟨b, hb⟩ := algorithmVerify_dict_total n1
    rw [hb]
    cases b
    · rfl
    · exact h2
  have hv2 : experimentVerify (V.dict (expPair n2 n1)) = .ok false := by
    rw [experimentVerify_expPair]
    obtain ⟨b, hb⟩ := algorithmVerify_dict_total n2
    rw [hb]
    cases b
    · rfl
    · exact h1
  unfold fromNodes
  rw [mkExperiment_fail hv1, mkExperiment_fail hv2]
  rfl

/-- `from_nodes` raises TypeError when neither operand verifies as an
algorithm. -/
theorem fromNodes_fail_alg {n1 n2 : Dict}
    (h1 : algorithmVerify (V.dict n1) = .ok false)
    (h2 : algorithmVerify (V.dict n2) = .ok false) :
    fromNodes n1 n2 =
      .error ⟨.typeError, "An Experiment requires one Dataset and one Algorithm"⟩ := by
  have hv1 : experimentVerify (V.dict (expPair n1 n2)) = .ok false := by
    rw [experimentVerify_expPair, h1]
  have hv2 : experimentVerify (V.dict (expPair n2 n1)) = .ok false := by
    rw [experimentVerify_expPair, h2]
  unfold fromNodes
  rw [mkExperiment_fail hv1, mkExperiment_fail hv2]
  rfl

/-- `from_nodes` raises TypeError when the right operand verifies as
neither an algorithm nor a dataset. -/
theorem fromNodes_fail_right {n1 n2 : Dict}
    (h1 : datasetVerify (V.dict n2) = .ok false)
    (h2 : algorithmVerify (V.dict n2) = .ok false) :
    fromNodes n1 n2 =
      .error ⟨.typeError, "An Experiment requires one Dataset and one Algorithm"⟩ := by
  have hv1 : experimentVerify (V.dict (expPair n1 n2)) = .ok false := by
    rw [experimentVerify_expPair]
    obtain ⟨b, hb⟩ := algorithmVerify_dict_total n1
    rw [hb]
    cases b
    · rfl
    · exact h1
  have hv2 : experimentVerify (V.dict (expPair n2 n1)) = .ok false := by
    rw [experimentVerify_expPair, h2]
  unfold fromNodes
  rw [mkExperiment_fail hv1, mkExperiment_fail hv2]
  rfl

/-- C10: `from_nodes` is order-insensitive when the pairing is
unambiguous: for a valid algorithm `a` and a valid dataset `d` such
that the reversed assignment is not also valid, both argument orders
produce the experiment with `a` under `algorithm` and `d` under
`dataset`. -/
theorem c10_from_nodes_symmetry (a d : Dict)
    (ha : algorithmVerify (V.dict a) = .ok true)
    (hd : datasetVerify (V.dict d) = .ok true)
    (hno : ¬(algorithmVerify (V.dict d) = .ok true ∧
             datasetVerify (V.dict a) = .ok true)) :
    fromNodes a d = .ok (expPair a d) ∧ fromNodes d a = .ok (expPair a d) := by
  refine ⟨fromNodes_ok ha hd, ?_⟩
  have hv1 : experimentVerify (V.dict (expPair d a)) = .ok false := by
    rw [experimentVerify_expPair]
    obtain ⟨b, hb⟩ := algorithmVerify_dict_total d
    rw [hb]
    cases b
    · rfl
    · obtain ⟨b2, hb2⟩ := datasetVerify_dict_total a
      rw [hb2]
      cases b2
      · rfl
      · exact absurd ⟨hb, hb2⟩ hno
  unfold fromNodes
  rw [mkExperiment_fail hv1, mkExperiment_ok (experimentVerify_expPair_ok ha hd)]
  rfl

/-- C10 witness: a concrete algorithm and dataset pair up the same way
in both orders. -/
theorem c10_from_nodes_symmetry_witness :
    fromNodes [("image", V.s "i"), ("instance", V.s "i")] [("path", V.dict [])] =
      .ok (expPair [("image", V.s "i"), ("instance", V.s "i")] [("path", V.dict [])]) ∧
    fromNodes [("path", V.dict [])] [("image", V.s "i"), ("instance", V.s "i")] =
      .ok (expPair [("image", V.s "i"), ("instance", V.s "i")] [("path", V.dict [])]) :=
  c10_from_nodes_symmetry [("image", V.s "i"), ("instance", V.s "i")] [("path", V.dict [])]
    rfl rfl
    (fun h => absurd (Except.ok.inj h.1) (by decide))

/-- With a valid algorithm on the left, a row of `from_nodes` maps every
valid dataset to the corresponding experiment mapping. -/
theorem fromNodesRow_ok {a : Dict} {l2 : List Dict}
    (ha : algorithmVerify (V.dict a) = .ok true)
    (hl : ∀ d ∈ l2, datasetVerify (V.dict d) = .ok true) :
    fromNodesRow a l2 = .ok (l2.map (expPair a)) := by
  induction l2 with
  | nil => rfl
  | cons d rest ih =>
    unfold fromNodesRow
    rw [fromNodes_ok ha (hl d (List.mem_cons_self d rest)),
      ih (fun x hx => hl x (List.mem_cons_of_mem d hx))]
    rfl

/-- The nested-loop product of `from_nodes` over valid algorithms and
valid datasets: rows in left-operand order, concatenated. -/
theorem fromNodesProd_ok {l1 l2 : List Dict}
    (h1 : ∀ a ∈ l1, algorithmVerify (V.dict a) = .ok true)
    (h2 : ∀ d ∈ l2, datasetVerify (V.dict d) = .ok true) :
    fromNodesProd l1 l2 = .ok ((l1.map (fun a => l2.map (expPair a))).flatten) := by
  induction l1 with
  | nil => rfl
  | cons a rest ih =>
    unfold fromNodesProd
    rw [fromNodesRow_ok (h1 a (List.mem_cons_self a rest)) h2,
      ih (fun x hx => h1 x (List.mem_cons_of_mem a hx))]
    rfl

/-- `all(map(verify, data))` is true when every member verifies. -/
theorem verifyAllD_ok {f : V → Except PyErr Bool} {l : List Dict}
    (h : ∀ d ∈ l, f (V.dict d) = .ok true) :
    verifyAllD f l = .ok true := by
  induction l with
  | nil => rfl
  | cons d rest ih =>
    unfold verifyAllD
    rw [h d (List.mem_cons_self d rest)]
    exact ih (fun x hx => h x (List.mem_cons_of_mem d hx))

/-- The `Experiments` constructor succeeds on a non-empty list of
verified experiment mappings and returns them unchanged. -/
theorem mkExperiments_ok {l : List Dict} (hne : l ≠ [])
    (h : ∀ e ∈ l, experimentVerify (V.dict e) = .ok true) :
    mkExperiments l = .ok (Obj.coll CollClass.experimentsC l) := by
  have hred : mkExperiments l =
      (match (if l.isEmpty = true then Except.ok false
              else verifyAllD experimentVerify l) with
       | Except.error e => Except.error e
       | Except.ok true => Except.ok (Obj.coll CollClass.experimentsC l)
       | Except.ok false => Except.error ⟨ErrKind.typeError, ""⟩) := rfl
  rw [hred, if_neg (by simpa using hne), verifyAllD_ok h]

/-- C2: multiplying an `Algorithms` by a `Datasets` is the nested loop
with the left operand outermost: `[a1, a2] * [d1, d2]` yields the four
experiments `from_nodes(a1,d1)`, `(a1,d2)`, `(a2,d1)`, `(a2,d2)` in
that exact order, and in general the product of valid collections is
the flattened row-major table of `from_nodes` results. -/
theorem c2_plural_product_order (a1 a2 d1 d2 : Dict)
    (ha1 : algorithmVerify (V.dict a1) = .ok true)
    (ha2 : algorithmVerify (V.dict a2) = .ok true)
    (hd1 : datasetVerify (V.dict d1) = .ok true)
    (hd2 : datasetVerify (V.dict d2) = .ok true) :
    mulObj (Obj.coll CollClass.algorithmsC [a1, a2])
        (Obj.coll CollClass.datasetsC [d1, d2]) =
      .ok (Obj.coll CollClass.experimentsC
        [expPair a1 d1, expPair a1 d2, expPair a2 d1, expPair a2 d2]) ∧
    fromNodes a1 d1 = .ok (expPair a1 d1) ∧
    fromNodes a1 d2 = .ok (expPair a1 d2) ∧
    fromNodes a2 d1 = .ok (expPair a2 d1) ∧
    fromNodes a2 d2 = .ok (expPair a2 d2) ∧
    (∀ l1 l2 : List Dict, l1 ≠ [] → l2 ≠ [] →
      (∀ a ∈ l1, algorithmVerify (V.dict a) = .ok true) →
      (∀ d ∈ l2, datasetVerify (V.dict d) = .ok true) →
      mulObj (Obj.coll CollClass.algorithmsC l1) (Obj.coll CollClass.datasetsC l2) =
        .ok (Obj.coll CollClass.experimentsC
          ((l1.map (fun a => l2.map (expPair a))).flatten))) := by
  have general : ∀ l1 l2 : List Dict, l1 ≠ [] → l2 ≠ [] →
      (∀ a ∈ l1, algorithmVerify (V.dict a) = .ok true) →
      (∀ d ∈ l2, datasetVerify (V.dict d) = .ok true) →
      mulObj (Obj.coll CollClass.algorithmsC l1) (Obj.coll CollClass.datasetsC l2) =
        .ok (Obj.coll CollClass.experimentsC
          ((l1.map (fun a => l2.map (expPair a))).flatten)) := by
    intro l1 l2 hne1 hne2 h1 h2
    have hred : mulObj (Obj.coll CollClass.algorithmsC l1)
        (Obj.coll CollClass.datasetsC l2) =
        (match fromNodesProd l1 l2 with
         | .error e => .error e
         | .ok es => mkExperiments es) := rfl
    rw [hred, fromNodesProd_ok h1 h2]
    refine mkExperiments_ok ?_ ?_
    · obtain ⟨a, l1r, rfl⟩ := List.exists_cons_of_ne_nil hne1
      obtain ⟨d, l2r, rfl⟩ := List.exists_cons_of_ne_nil hne2
      simp
    · intro e he
      simp only [List.mem_flatten, List.mem_map] at he
      obtain ⟨row, ⟨a, hal, rfl⟩, hrow⟩ := he
      obtain ⟨d, hdl, rfl⟩ := List.mem_map.mp hrow
      exact experimentVerify_expPair_ok (h1 a hal) (h2 d hdl)
  refine ⟨?_, fromNodes_ok ha1 hd1, fromNodes_ok ha1 hd2,
    fromNodes_ok ha2 hd1, fromNodes_ok ha2 hd2, general⟩
  have h4 := general [a1, a2] [d1, d2] (by simp) (by simp)
    (by intro a ha
        simp only [List.mem_cons, List.not_mem_nil, or_false] at ha
        rcases ha with rfl | rfl
        · exact ha1
        · exact ha2)
    (by intro d hd
        simp only [List.mem_cons, List.not_mem_nil, or_false] at hd
        rcases hd with rfl | rfl
        · exact hd1
        · exact hd2)
  simpa using h4

/-- C2 witness: the doctest product of two concrete algorithms and two
concrete datasets, in the documented order. -/
theorem c2_plural_product_order_witness :
    mulObj (Obj.coll CollClass.algorithmsC
        [[("image", V.s "1"), ("instance", V.s "1")],
         [("image", V.s "2"), ("instance", V.s "2")]])
      (Obj.coll CollClass.datasetsC
        [[("path", V.dict [("1", V.s "1")])],
         [("path", V.dict [("2", V.s "2")])]]) =
      .ok (Obj.coll CollClass.experimentsC
        [expPair [("image", V.s "1"), ("instance", V.s "1")] [("path", V.dict [("1", V.s "1")])],
         expPair [("image", V.s "1"), ("instance", V.s "1")] [("path", V.dict [("2", V.s "2")])],
         expPair [("image", V.s "2"), ("instance", V.s "2")] [("path", V.dict [("1", V.s "1")])],
         expPair [("image", V.s "2"), ("instance", V.s "2")] [("path", V.dict [("2", V.s "2")])]]) :=
  (c2_plural_product_order
    [("image", V.s "1"), ("instance", V.s "1")]
    [("image", V.s "2"), ("instance", V.s "2")]
    [("path", V.dict [("1", V.s "1")])]
    [("path", V.dict [("2", V.s "2")])]
    rfl rfl rfl rfl).1

/-- With a valid dataset on the right, a column of `from_nodes` maps
every valid algorithm to the corresponding experiment mapping. -/
theorem fromNodesCol_ok {l1 : List Dict} {d : Dict}
    (hl : ∀ a ∈ l1, algorithmVerify (V.dict a) = .ok true)
    (hd : datasetVerify (V.dict d) = .ok true) :
    fromNodesCol l1 d = .ok (l1.map (fun a => expPair a d)) := by
  induction l1 with
  | nil => rfl
  | cons a rest ih =>
    unfold fromNodesCol
    rw [fromNodes_ok (hl a (List.mem_cons_self a rest)) hd,
      ih (fun x hx => hl x (List.mem_cons_of_mem a hx))]
    rfl

/-- The `Algorithms` constructor succeeds on a non-empty list of
verified algorithm mappings. -/
theorem mkColl_alg_ok {l : List Dict} (hne : l ≠ [])
    (h : ∀ a ∈ l, algorithmVerify (V.dict a) = .ok true) :
    mkColl CollClass.algorithmsC l = .ok (Obj.coll CollClass.algorithmsC l) := by
  have hred : mkColl CollClass.algorithmsC l =
      (match (if l.isEmpty = true then Except.ok false
              else verifyAllD algorithmVerify l) with
       | Except.error e => Except.error e
       | Except.ok true => Except.ok (Obj.coll CollClass.algorithmsC l)
       | Except.ok false => Except.error ⟨ErrKind.typeError, ""⟩) := rfl
  rw [hred, if_neg (by simpa using hne), verifyAllD_ok h]

/-- C8: multiplication distributes over addition-produced collections:
for valid algorithms `a1`, `a2` and a valid dataset `d`, `(a1 + a2)`
evaluates to `Algorithms([a1, a2])`, whose product with `d` equals the
sum `(a1 * d) + (a2 * d)` of the two singleton products, namely the
`Experiments` holding the two experiments in order. -/
theorem c8_distributivity (a1 a2 d : Dict)
    (ha1 : algorithmVerify (V.dict a1) = .ok true)
    (ha2 : algorithmVerify (V.dict a2) = .ok true)
    (hd : datasetVerify (V.dict d) = .ok true) :
    addObj (Obj.single NodeClass.algorithmC a1) (Obj.single NodeClass.algorithmC a2) =
      .ok (Obj.coll CollClass.algorithmsC [a1, a2]) ∧
    mulObj (Obj.coll CollClass.algorithmsC [a1, a2]) (Obj.single NodeClass.datasetC d) =
      .ok (Obj.coll CollClass.experimentsC [expPair a1 d, expPair a2 d]) ∧
    mulObj (Obj.single NodeClass.algorithmC a1) (Obj.single NodeClass.datasetC d) =
      .ok (Obj.coll CollClass.experimentsC [expPair a1 d]) ∧
    mulObj (Obj.single NodeClass.algorithmC a2) (Obj.single NodeClass.datasetC d) =
      .ok (Obj.coll CollClass.experimentsC [expPair a2 d]) ∧
    addObj (Obj.coll CollClass.experimentsC [expPair a1 d])
        (Obj.coll CollClass.experimentsC [expPair a2 d]) =
      .ok (Obj.coll CollClass.experimentsC [expPair a1 d, expPair a2 d]) := by
  have hmem2 : ∀ a ∈ [a1, a2], algorithmVerify (V.dict a) = .ok true := by
    intro a ha
    simp only [List.mem_cons, List.not_mem_nil, or_false] at ha
    rcases ha with rfl | rfl
    · exact ha1
    · exact ha2
  refine ⟨?_, ?_, ?_, ?_, ?_⟩
  · have hred : addObj (Obj.single NodeClass.algorithmC a1)
        (Obj.single NodeClass.algorithmC a2) =
        mkColl CollClass.algorithmsC [a1, a2] := rfl
    rw [hred]
    exact mkColl_alg_ok (by simp) hmem2
  · have hred : mulObj (Obj.coll CollClass.algorithmsC [a1, a2])
        (Obj.single NodeClass.datasetC d) =
        (match fromNodesCol [a1, a2] d with
         | .error e => .error e
         | .ok es => mkExperiments es) := rfl
    rw [hred, fromNodesCol_ok hmem2 hd]
    refine mkExperiments_ok (by simp) ?_
    intro e he
    simp only [List.map_cons, List.map_nil, List.mem_cons, List.not_mem_nil,
      or_false] at he
    rcases he with rfl | rfl
    · exact experimentVerify_expPair_ok ha1 hd
    · exact experimentVerify_expPair_ok ha2 hd
  · have hred : mulObj (Obj.single NodeClass.algorithmC a1)
        (Obj.single NodeClass.datasetC d) =
        (match fromNodes a1 d with
         | .error e => .error e
         | .ok e1 => mkExperiments [e1]) := rfl
    rw [hred, fromNodes_ok ha1 hd]
    exact mkExperiments_ok (by simp)
      (by intro e he
          simp only [List.mem_singleton] at he
          subst he
          exact experimentVerify_expPair_ok ha1 hd)
  · have hred : mulObj (Obj.single NodeClass.algorithmC a2)
        (Obj.single NodeClass.datasetC d) =
        (match fromNodes a2 d with
         | .error e => .error e
         | .ok e1 => mkExperiments [e1]) := rfl
    rw [hred, fromNodes_ok ha2 hd]
    exact mkExperiments_ok (by simp)
      (by intro e he
          simp only [List.mem_singleton] at he
          subst he
          exact experimentVerify_expPair_ok ha2 hd)
  · have hred : addObj (Obj.coll CollClass.experimentsC [expPair a1 d])
        (Obj.coll CollClass.experimentsC [expPair a2 d]) =
        mkColl CollClass.experimentsC [expPair a1 d, expPair a2 d] := rfl
    rw [hred]
    refine mkExperiments_ok (by simp) ?_
    intro e he
    simp only [List.mem_cons, List.not_mem_nil, or_false] at he
    rcases he with rfl | rfl
    · exact experimentVerify_expPair_ok ha1 hd
    · exact experimentVerify_expPair_ok ha2 hd

/-- C8 witness: distributivity at a concrete pair of algorithms and one
dataset. -/
theorem c8_distributivity_witness :
    addObj (Obj.single NodeClass.algorithmC [("image", V.s "1"), ("instance", V.s "1")])
        (Obj.single NodeClass.algorithmC [("image", V.s "2"), ("instance", V.s "2")]) =
      .ok (Obj.coll CollClass.algorithmsC
        [[("image", V.s "1"), ("instance", V.s "1")],
         [("image", V.s "2"), ("instance", V.s "2")]]) ∧
    mulObj (Obj.coll CollClass.algorithmsC
        [[("image", V.s "1"), ("instance", V.s "1")],
         [("image", V.s "2"), ("instance", V.s "2")]])
      (Obj.single NodeClass.datasetC [("path", V.dict [])]) =
      .ok (Obj.coll CollClass.experimentsC
        [expPair [("image", V.s "1"), ("instance", V.s "1")] [("path", V.dict [])],
         expPair [("image", V.s "2"), ("instance", V.s "2")] [("path", V.dict [])]]) :=
  ⟨(c8_distributivity [("image", V.s "1"), ("instance", V.s "1")]
      [("image", V.s "2"), ("instance", V.s "2")] [("path", V.dict [])]
      rfl rfl rfl).1,
   (c8_distributivity [("image", V.s "1"), ("instance", V.s "1")]
      [("image", V.s "2"), ("instance", V.s "2")] [("path", V.dict [])]
      rfl rfl rfl).2.1⟩

/-- C9: the claim that same-family multiplication always fails is wrong
on the code.  A mapping that satisfies both the Algorithm and the
Dataset invariants multiplies with itself successfully: `from_nodes`
accepts it in either role. -/
theorem c9_counterexample :
    algorithmVerify (V.dict [("image", V.s ""), ("instance", V.s ""),
      ("path", V.dict [])]) = .ok true ∧
    datasetVerify (V.dict [("image", V.s ""), ("instance", V.s ""),
      ("path", V.dict [])]) = .ok true ∧
    mulObj (Obj.single NodeClass.algorithmC
        [("image", V.s ""), ("instance", V.s ""), ("path", V.dict [])])
      (Obj.single NodeClass.algorithmC
        [("image", V.s ""), ("instance", V.s ""), ("path", V.dict [])]) =
      .ok (Obj.coll CollClass.experimentsC
        [expPair [("image", V.s ""), ("instance", V.s ""), ("path", V.dict [])]
          [("image", V.s ""), ("instance", V.s ""), ("path", V.dict [])]]) :=
  ⟨rfl, rfl, rfl⟩

/-- C9 (amended): multiplication fails exactly when no generated pair
admits a valid algorithm/dataset assignment.  Same-family operands fail
provided their mappings do not also satisfy the other family invariant;
`Experiment` and `Experiments` as the left operand always fail
(`__mul__ = None`); a collection times `Experiments` always fails; and
a node times an `Experiment` fails provided the experiment mapping
itself satisfies neither invariant. -/
theorem c9_multiplication_failures :
    (∀ a1 a2 : Dict, datasetVerify (V.dict a1) = .ok false →
      datasetVerify (V.dict a2) = .ok false →
      mulObj (Obj.single NodeClass.algorithmC a1) (Obj.single NodeClass.algorithmC a2) =
        .error ⟨.typeError, "An Experiment requires one Dataset and one Algorithm"⟩) ∧
    (∀ d1 d2 : Dict, algorithmVerify (V.dict d1) = .ok false →
      algorithmVerify (V.dict d2) = .ok false →
      mulObj (Obj.single NodeClass.datasetC d1) (Obj.single NodeClass.datasetC d2) =
        .error ⟨.typeError, "An Experiment requires one Dataset and one Algorithm"⟩) ∧
    (∀ (d : Dict) (x : Obj), mulObj (Obj.single NodeClass.experimentC d) x =
      .error ⟨.typeError, "unsupported operand type"⟩) ∧
    (∀ (l : List Dict) (x : Obj), mulObj (Obj.coll CollClass.experimentsC l) x =
      .error ⟨.typeError, "unsupported operand type"⟩) ∧
    (∀ (c : CollClass) (l1 l2 : List Dict),
      ∃ e, mulObj (Obj.coll c l1) (Obj.coll CollClass.experimentsC l2) = .error e) ∧
    (∀ a e : Dict, datasetVerify (V.dict e) = .ok false →
      algorithmVerify (V.dict e) = .ok false →
      mulObj (Obj.single NodeClass.algorithmC a) (Obj.single NodeClass.experimentC e) =
        .error ⟨.typeError, "An Experiment requires one Dataset and one Algorithm"⟩) ∧
    (∀ (a1 a2 : Dict) (r1 r2 : List Dict),
      datasetVerify (V.dict a1) = .ok false → datasetVerify (V.dict a2) = .ok false →
      mulObj (Obj.coll CollClass.algorithmsC (a1 :: r1))
        (Obj.coll CollClass.algorithmsC (a2 :: r2)) =
        .error ⟨.typeError, "An Experiment requires one Dataset and one Algorithm"⟩) := by
  refine ⟨?_, ?_, fun d x => rfl, fun l x => rfl, ?_, ?_, ?_⟩
  · intro a1 a2 h1 h2
    have hred : mulObj (Obj.single NodeClass.algorithmC a1)
        (Obj.single NodeClass.algorithmC a2) =
        (match fromNodes a1 a2 with
         | .error e => .error e
         | .ok e1 => mkExperiments [e1]) := rfl
    rw [hred, fromNodes_fail_ds h1 h2]
  · intro d1 d2 h1 h2
    have hred : mulObj (Obj.single NodeClass.datasetC d1)
        (Obj.single NodeClass.datasetC d2) =
        (match fromNodes d1 d2 with
         | .error e => .error e
         | .ok e1 => mkExperiments [e1]) := rfl
    rw [hred, fromNodes_fail_alg h1 h2]
  · intro c l1 l2
    cases c
    · exact ⟨⟨.typeError, "unable to multiply"⟩, rfl⟩
    · exact ⟨⟨.typeError, "unable to multiply"⟩, rfl⟩
    · exact ⟨⟨.typeError, "unable to multiply"⟩, rfl⟩
    · exact ⟨⟨.typeError, "unsupported operand type"⟩, rfl⟩
  · intro a e h1 h2
    have hred : mulObj (Obj.single NodeClass.algorithmC a)
        (Obj.single NodeClass.experimentC e) =
        (match fromNodes a e with
         | .error e2 => .error e2
         | .ok e1 => mkExperiments [e1]) := rfl
    rw [hred, fromNodes_fail_right h1 h2]
  · intro a1 a2 r1 r2 h1 h2
    have hred : mulObj (Obj.coll CollClass.algorithmsC (a1 :: r1))
        (Obj.coll CollClass.algorithmsC (a2 :: r2)) =
        (match fromNodesProd (a1 :: r1) (a2 :: r2) with
         | .error e => .error e
         | .ok es => mkExperiments es) := rfl
    have hrow : fromNodesRow a1 (a2 :: r2) =
        .error ⟨.typeError, "An Experiment requires one Dataset and one Algorithm"⟩ := by
      unfold fromNodesRow
      rw [fromNodes_fail_ds h1 h2]
    have hprod : fromNodesProd (a1 :: r1) (a2 :: r2) =
        .error ⟨.typeError, "An Experiment requires one Dataset and one Algorithm"⟩ := by
      unfold fromNodesProd
      rw [hrow]
    rw [hred, hprod]

/-- C9 witness: two plain algorithms (not dataset-shaped) cannot be
multiplied. -/
theorem c9_multiplication_failures_witness :
    mulObj (Obj.single NodeClass.algorithmC [("image", V.s "i"), ("instance", V.s "i")])
      (Obj.single NodeClass.algorithmC [("image", V.s "j"), ("instance", V.s "j")]) =
      .error ⟨.typeError, "An Experiment requires one Dataset and one Algorithm"⟩ :=
  c9_multiplication_failures.1 [("image", V.s "i"), ("instance", V.s "i")]
    [("image", V.s "j"), ("instance", V.s "j")] rfl rfl

/-- When every item is legal, the `$each` loop produces one entry per
item, in list order. -/
theorem eachGo_ok {rest : Dict} {items : List V}
    (h : ∀ it ∈ items, eachLegal rest it = true) :
    eachGo rest items = .ok (items.map (eachEntry rest)) := by
  induction items with
  | nil => rfl
  | cons it tails ih =>
    have hlegal := h it (List.mem_cons_self it tails)
    have htail := ih (fun x hx => h x (List.mem_cons_of_mem it hx))
    cases it with
    | s str =>
      simp only [eachLegal, Bool.or_eq_true, decide_eq_true_eq] at hlegal
      by_cases hs : str = "$None"
      · simp only [eachGo, if_pos hs, htail]
        simp [eachEntry, hs]
      · have hre : rest.isEmpty = true := by
          rcases hlegal with h1 | h1
          · exact absurd h1 hs
          · exact h1
        simp only [eachGo, if_neg hs, if_pos hre, htail]
        simp [eachEntry, hs]
    | dict d2 =>
      simp only [eachGo, htail]
      simp [eachEntry]
    | null =>
      have hre : rest.isEmpty = true := hlegal
      simp only [eachGo, if_pos hre, htail]
      simp [eachEntry]
    | b x =>
      have hre : rest.isEmpty = true := hlegal
      simp only [eachGo, if_pos hre, htail]
      simp [eachEntry]
    | i n =>
      have hre : rest.isEmpty = true := hlegal
      simp only [eachGo, if_pos hre, htail]
      simp [eachEntry]
    | list xs =>
      have hre : rest.isEmpty = true := hlegal
      simp only [eachGo, if_pos hre, htail]
      simp [eachEntry]
    | versions xs =>
      have hre : rest.isEmpty = true := hlegal
      simp only [eachGo, if_pos hre, htail]
      simp [eachEntry]

/-- When some item is illegal, the `$each` loop raises the TypeError of
`apply_each`. -/
theorem eachGo_err {rest : Dict} {items : List V}
    (h : ¬ ∀ it ∈ items, eachLegal rest it = true) :
    eachGo rest items = .error eachScalarErr := by
  induction items with
  | nil => exact absurd (by intro it hit; cases hit) h
  | cons it tails ih =>
    by_cases hhead : eachLegal rest it = true
    · have htails : ¬ ∀ x ∈ tails, eachLegal rest x = true := by
        intro hall
        exact h (by
          intro x hx
          rcases List.mem_cons.mp hx with rfl | hx2
          · exact hhead
          · exact hall x hx2)
      have htail := ih htails
      cases it with
      | s str =>
        simp only [eachLegal, Bool.or_eq_true, decide_eq_true_eq] at hhead
        by_cases hs : str = "$None"
        · simp only [eachGo, if_pos hs, htail]
        · have hre : rest.isEmpty = true := by
            rcases hhead with h1 | h1
            · exact absurd h1 hs
            · exact h1
          simp only [eachGo, if_neg hs, if_pos hre, htail]
      | dict d2 => simp only [eachGo, htail]
      | null =>
        have hre : rest.isEmpty = true := hhead
        simp only [eachGo, if_pos hre, htail]
      | b x =>
        have hre : rest.isEmpty = true := hhead
        simp only [eachGo, if_pos hre, htail]
      | i n =>
        have hre : rest.isEmpty = true := hhead
        simp only [eachGo, if_pos hre, htail]
      | list xs =>
        have hre : rest.isEmpty = true := hhead
        simp only [eachGo, if_pos hre, htail]
      | versions xs =>
        have hre : rest.isEmpty = true := hhead
        simp only [eachGo, if_pos hre, htail]
    · cases it with
      | s str =>
        simp only [eachLegal, Bool.or_eq_true, decide_eq_true_eq] at hhead
        push_neg at hhead
        obtain ⟨hs, hre⟩ := hhead
        simp only [eachGo, if_neg hs, if_neg hre]
      | dict d2 => exact absurd rfl hhead
      | null =>
        have hre : ¬ rest.isEmpty = true := hhead
        simp only [eachGo, if_neg hre]
      | b x =>
        have hre : ¬ rest.isEmpty = true := hhead
        simp only [eachGo, if_neg hre]
      | i n =>
        have hre : ¬ rest.isEmpty = true := hhead
        simp only [eachGo, if_neg hre]
      | list xs =>
        have hre : ¬ rest.isEmpty = true := hhead
        simp only [eachGo, if_neg hre]
      | versions xs =>
        have hre : ¬ rest.isEmpty = true := hhead
        simp only [eachGo, if_neg hre]

/-- C3: resolving `$each` on a mapping whose `$each` key holds a list
produces a `Versions` with one entry per item in list order: the
sentinel `$None` yields the node with `$each` removed and nothing
merged, a mapping item is shallow-merged with the remaining keys of the
node (node keys win on conflict), and any other item is only legal when
the node has no keys besides `$each`, a violation raising the TypeError
of `apply_each`. -/
theorem c3_apply_each (en : Dict) (items : List V)
    (h : dlookup en "$each" = some (V.list items)) :
    ((∀ it ∈ items, eachLegal (dremove en "$each") it = true) →
      applyEach (V.dict en) =
        .ok (V.versions (items.map (eachEntry (dremove en "$each"))))) ∧
    ((¬ ∀ it ∈ items, eachLegal (dremove en "$each") it = true) →
      applyEach (V.dict en) = .error eachScalarErr) := by
  constructor
  · intro hall
    simp only [applyEach, h, eachGo_ok hall]
  · intro hbad
    simp only [applyEach, h, eachGo_err hbad]

/-- C3 witness: the spec example `(c: x, $each: [$None, (a: 1)])` yields
the two versions `(c: x)` and `(a: 1, c: x)`. -/
theorem c3_apply_each_witness :
    applyEach (V.dict [("c", V.s "x"),
        ("$each", V.list [V.s "$None", V.dict [("a", V.i 1)]])]) =
      .ok (V.versions [V.dict [("c", V.s "x")],
        V.dict [("a", V.i 1), ("c", V.s "x")]]) :=
  (c3_apply_each [("c", V.s "x"),
      ("$each", V.list [V.s "$None", V.dict [("a", V.i 1)]])]
    [V.s "$None", V.dict [("a", V.i 1)]] rfl).1
    (by
      intro it hit
      rcases List.mem_cons.mp hit with rfl | hit2
      · rfl
      · rcases List.mem_cons.mp hit2 with rfl | hit3
        · rfl
        · cases hit3)

/-- Assignment stores the value under the assigned key. -/
theorem dlookup_dset_self (d : Dict) (k : String) (v : V) :
    dlookup (dset d k v) k = some v := by
  induction d with
  | nil => simp [dset, dlookup]
  | cons kv rest ih =>
    obtain ⟨k1, v1⟩ := kv
    by_cases hk : k1 = k
    · simp [dset, hk, dlookup]
    · simp [dset, hk, dlookup, ih]

/-- Assignment leaves every other key unchanged. -/
theorem dlookup_dset_ne (d : Dict) {k k2 : String} (v : V) (h : k2 ≠ k) :
    dlookup (dset d k v) k2 = dlookup d k2 := by
  induction d with
  | nil =>
    simp only [dset, dlookup]
    rw [if_neg (fun he : k = k2 => h he.symm)]
  | cons kv rest ih =>
    obtain ⟨k1, v1⟩ := kv
    by_cases hk : k1 = k
    · subst hk
      simp only [dset, if_pos rfl, dlookup]
      rw [if_neg (fun he : k1 = k2 => h he.symm),
        if_neg (fun he : k1 = k2 => h he.symm)]
    · simp only [dset, if_neg hk, dlookup, ih]

/-- A key that never occurs in the list looks up to nothing. -/
theorem dlookup_eq_none_of_not_mem {d : Dict} {k : String}
    (h : k ∉ d.map Prod.fst) : dlookup d k = none := by
  induction d with
  | nil => rfl
  | cons kv rest ih =>
    obtain ⟨k1, v1⟩ := kv
    simp only [List.map_cons, List.mem_cons] at h
    push_neg at h
    simp only [dlookup, if_neg (fun he : k1 = k => h.1 he.symm)]
    exact ih h.2

/-- `update_nested_dict` is monotone in the fuel. -/
theorem updateNestedDict_mono :
    ∀ f1 f2 data o r, f1 ≤ f2 → updateNestedDict f1 data o = some r →
      updateNestedDict f2 data o = some r := by
  intro f1
  induction f1 with
  | zero =>
    intro f2 data o r _ h
    simp [updateNestedDict] at h
  | succ f ih =>
    intro f2 data o r hle h
    obtain ⟨g, rfl⟩ : ∃ g, f2 = g + 1 := ⟨f2 - 1, by omega⟩
    have hfg : f ≤ g := by omega
    cases o with
    | nil => simpa [updateNestedDict] using h
    | cons kv rest =>
      obtain ⟨key, value⟩ := kv
      cases data <;> cases value <;>
        first
        | (simp only [updateNestedDict] at h ⊢
           exact ih _ _ _ _ hfg h)
        | (simp only [updateNestedDict] at h ⊢
           cases hin : updateNestedDict f ((dlookup _ key).getD (V.dict [])) _ with
           | none => rw [hin] at h; cases h
           | some sub =>
             rw [hin] at h
             rw [ih _ _ _ _ hfg hin]
             exact ih _ _ _ _ hfg h)

/-- Merging an overlay into a mapping produces a mapping. -/
theorem updateNestedDict_isDict :
    ∀ fuel o b r, updateNestedDict fuel (V.dict b) o = some r →
      ∃ rd, r = V.dict rd := by
  intro fuel
  induction fuel with
  | zero =>
    intro o b r h
    simp [updateNestedDict] at h
  | succ f ih =>
    intro o b r h
    cases o with
    | nil =>
      simp only [updateNestedDict, Option.some.injEq] at h
      exact ⟨b, h.symm⟩
    | cons kv rest =>
      obtain ⟨key, value⟩ := kv
      cases value <;>
        first
        | (simp only [updateNestedDict] at h
           exact ih _ _ _ h)
        | (simp only [updateNestedDict] at h
           cases hin : updateNestedDict f ((dlookup b key).getD (V.dict [])) _ with
           | none => rw [hin] at h; cases h
           | some sub =>
             rw [hin] at h
             exact ih _ _ _ h)

/-- Keys not named by the overlay keep their value from the base. -/
theorem updateNestedDict_not_mem :
    ∀ fuel o b r k, updateNestedDict fuel (V.dict b) o = some r →
      k ∉ o.map Prod.fst → vlookup r k = dlookup b k := by
  intro fuel
  induction fuel with
  | zero =>
    intro o b r k h
    simp [updateNestedDict] at h
  | succ f ih =>
    intro o b r k h h2
    cases o with
    | nil =>
      simp only [updateNestedDict, Option.some.injEq] at h
      subst h
      rfl
    | cons kv rest =>
      obtain ⟨key, value⟩ := kv
      simp only [List.map_cons, List.mem_cons] at h2
      push_neg at h2
      obtain ⟨hk, hrest⟩ := h2
      cases value <;>
        first
        | (simp only [updateNestedDict] at h
           rw [ih _ _ _ _ h hrest, dlookup_dset_ne _ _ hk])
        | (simp only [updateNestedDict] at h
           cases hin : updateNestedDict f ((dlookup b key).getD (V.dict [])) _ with
           | none => rw [hin] at h; cases h
           | some sub =>
             rw [hin] at h
             rw [ih _ _ _ _ h hrest, dlookup_dset_ne _ _ hk])

/-- An overlay key holding a non-mapping value wins outright over the
base (the value of the node replaces the inherited one). -/
theorem updateNestedDict_override :
    ∀ fuel o b r k v, updateNestedDict fuel (V.dict b) o = some r →
      (o.map Prod.fst).Nodup → dlookup o k = some v → v.isDict = false →
      vlookup r k = some v := by
  intro fuel
  induction fuel with
  | zero =>
    intro o b r k v h
    simp [updateNestedDict] at h
  | succ f ih =>
    intro o b r k v h hnd hlk hvd
    cases o with
    | nil => cases hlk
    | cons kv rest =>
      obtain ⟨key, value⟩ := kv
      simp only [List.map_cons, List.nodup_cons] at hnd
      obtain ⟨hknotin, hndrest⟩ := hnd
      by_cases hk : key = k
      · subst hk
        have hv : value = v := by simpa [dlookup] using hlk
        subst hv
        have hnotin : key ∉ rest.map Prod.fst := hknotin
        cases value <;>
          first
          | (simp only [updateNestedDict] at h
             rw [updateNestedDict_not_mem _ _ _ _ _ h hnotin, dlookup_dset_self])
          | (exact absurd hvd (by simp [V.isDict]))
      · simp only [dlookup, if_neg hk] at hlk
        cases value <;>
          first
          | (simp only [updateNestedDict] at h
             exact ih _ _ _ _ _ h hndrest hlk hvd)
          | (simp only [updateNestedDict] at h
             cases hin : updateNestedDict f ((dlookup b key).getD (V.dict [])) _ with
             | none => rw [hin] at h; cases h
             | some sub =>
               rw [hin] at h
               exact ih _ _ _ _ _ h hndrest hlk hvd)

/-- An overlay key holding a mapping is merged recursively with the
value under the same key in the base (an absent base value counts as
the empty mapping). -/
theorem updateNestedDict_nested :
    ∀ fuel o b r k u, updateNestedDict fuel (V.dict b) o = some r →
      (o.map Prod.fst).Nodup → dlookup o k = some (V.dict u) →
      ∃ sub, updateNestedDict fuel ((dlookup b k).getD (V.dict [])) u = some sub ∧
        vlookup r k = some sub := by
  intro fuel
  induction fuel with
  | zero =>
    intro o b r k u h
    simp [updateNestedDict] at h
  | succ f ih =>
    intro o b r k u h hnd hlk
    cases o with
    | nil => cases hlk
    | cons kv rest =>
      obtain ⟨key, value⟩ := kv
      simp only [List.map_cons, List.nodup_cons] at hnd
      obtain ⟨hknotin, hndrest⟩ := hnd
      by_cases hk : key = k
      · subst hk
        have hv : value = V.dict u := by simpa [dlookup] using hlk
        subst hv
        simp only [updateNestedDict] at h
        cases hin : updateNestedDict f ((dlookup b key).getD (V.dict [])) u with
        | none => rw [hin] at h; cases h
        | some sub =>
          rw [hin] at h
          refine ⟨sub, updateNestedDict_mono f (f + 1) _ _ _ (Nat.le_succ f) hin, ?_⟩
          rw [updateNestedDict_not_mem _ _ _ _ _ h hknotin, dlookup_dset_self]
      · simp only [dlookup, if_neg hk] at hlk
        have hne : k ≠ key := fun he => hk he.symm
        cases value with
        | dict u2 =>
          simp only [updateNestedDict] at h
          cases hin : updateNestedDict f ((dlookup b key).getD (V.dict [])) u2 with
          | none => rw [hin] at h; cases h
          | some sub2 =>
            rw [hin] at h
            obtain ⟨sub, hsub, hlr⟩ := ih _ _ _ _ _ h hndrest hlk
            rw [dlookup_dset_ne _ _ hne] at hsub
            exact ⟨sub, updateNestedDict_mono f (f + 1) _ _ _ (Nat.le_succ f) hsub, hlr⟩
        | null =>
          simp only [updateNestedDict] at h
          obtain ⟨sub, hsub, hlr⟩ := ih _ _ _ _ _ h hndrest hlk
          rw [dlookup_dset_ne _ _ hne] at hsub
          exact ⟨sub, updateNestedDict_mono f (f + 1) _ _ _ (Nat.le_succ f) hsub, hlr⟩
        | b xb =>
          simp only [updateNestedDict] at h
          obtain ⟨sub, hsub, hlr⟩ := ih _ _ _ _ _ h hndrest hlk
          rw [dlookup_dset_ne _ _ hne] at hsub
          exact ⟨sub, updateNestedDict_mono f (f + 1) _ _ _ (Nat.le_succ f) hsub, hlr⟩
        | i n =>
          simp only [updateNestedDict] at h
          obtain ⟨sub, hsub, hlr⟩ := ih _ _ _ _ _ h hndrest hlk
          rw [dlookup_dset_ne _ _ hne] at hsub
          exact ⟨sub, updateNestedDict_mono f (f + 1) _ _ _ (Nat.le_succ f) hsub, hlr⟩
        | s str =>
          simp only [updateNestedDict] at h
          obtain ⟨sub, hsub, hlr⟩ := ih _ _ _ _ _ h hndrest hlk
          rw [dlookup_dset_ne _ _ hne] at hsub
          exact ⟨sub, updateNestedDict_mono f (f + 1) _ _ _ (Nat.le_succ f) hsub, hlr⟩
        | list xs =>
          simp only [updateNestedDict] at h
          obtain ⟨sub, hsub, hlr⟩ := ih _ _ _ _ _ h hndrest hlk
          rw [dlookup_dset_ne _ _ hne] at hsub
          exact ⟨sub, updateNestedDict_mono f (f + 1) _ _ _ (Nat.le_succ f) hsub, hlr⟩
        | versions xs =>
          simp only [updateNestedDict] at h
          obtain ⟨sub, hsub, hlr⟩ := ih _ _ _ _ _ h hndrest hlk
          rw [dlookup_dset_ne _ _ hne] at hsub
          exact ⟨sub, updateNestedDict_mono f (f + 1) _ _ _ (Nat.le_succ f) hsub, hlr⟩

/-- C4: the source pointed to by `$from` raises an AssertionError when
it does not resolve to a mapping — the code uses an `assert` statement,
not a TypeError as the claim states. -/
theorem c4_counterexample :
    applyFromF (V.dict [("p", V.i 5)]) 5
        (V.dict [("$from", V.s "p"), ("k", V.i 1)]) =
      .error ⟨.assertionError, "$from can only be used to inherit from a dict"⟩ ∧
    ErrKind.assertionError ≠ ErrKind.typeError :=
  ⟨rfl, by decide⟩

/-- C4 (amended): resolving `$from` fetches the source at the path,
first resolves the `$from` directives of the source itself through the
recursive visitor (chained inheritance), then deep-merges the node
without `$from` into it: overlay keys holding non-mapping values win
outright, keys absent from the node keep the inherited value, and keys
holding mappings are merged recursively.  A source that is not a
mapping raises AssertionError (the `assert` statement), not TypeError. -/
theorem c4_apply_from :
    (∀ (fuel : Nat) (ctx : V) (en : Dict) (p : String) (src : V)
        (sd : List (String × V)) (merged : V),
      dlookup en "$from" = some (V.s p) →
      getItemFromPath ctx p = .ok src →
      recursiveApplyE (fun v => applyFromF ctx fuel v) fuel src = .ok (V.dict sd) →
      updateNestedDict fuel (V.dict sd) (dremove en "$from") = some merged →
      applyFromF ctx (fuel + 1) (V.dict en) = .ok merged) ∧
    (∀ (fuel : Nat) (ctx : V) (en : Dict) (p : String) (src src2 : V),
      dlookup en "$from" = some (V.s p) →
      getItemFromPath ctx p = .ok src →
      recursiveApplyE (fun v => applyFromF ctx fuel v) fuel src = .ok src2 →
      src2.isDict = false →
      applyFromF ctx (fuel + 1) (V.dict en) =
        .error ⟨.assertionError, "$from can only be used to inherit from a dict"⟩) ∧
    (∀ (fuel : Nat) (o : Dict) (b : List (String × V)) (r : V) (k : String) (v : V),
      updateNestedDict fuel (V.dict b) o = some r →
      (o.map Prod.fst).Nodup → dlookup o k = some v → v.isDict = false →
      vlookup r k = some v) ∧
    (∀ (fuel : Nat) (o : Dict) (b : List (String × V)) (r : V) (k : String),
      updateNestedDict fuel (V.dict b) o = some r →
      k ∉ o.map Prod.fst → vlookup r k = dlookup b k) ∧
    (∀ (fuel : Nat) (o : Dict) (b : List (String × V)) (r : V) (k : String)
        (u : List (String × V)),
      updateNestedDict fuel (V.dict b) o = some r →
      (o.map Prod.fst).Nodup → dlookup o k = some (V.dict u) →
      ∃ sub, updateNestedDict fuel ((dlookup b k).getD (V.dict [])) u = some sub ∧
        vlookup r k = some sub) := by
  refine ⟨?_, ?_, updateNestedDict_override, updateNestedDict_not_mem,
    updateNestedDict_nested⟩
  · intro fuel ctx en p src sd merged h1 h2 h3 h4
    simp only [applyFromF, h1, h2, h3, h4]
  · intro fuel ctx en p src src2 h1 h2 h3 h4
    simp only [applyFromF, h1, h2, h3]
    cases src2 with
    | dict sd => simp [V.isDict] at h4
    | null => rfl
    | b x => rfl
    | i n => rfl
    | s str => rfl
    | list xs => rfl
    | versions xs => rfl

/-- C4 witness: chained inheritance on a concrete document.  `mid`
inherits from `base`; a node inheriting from `mid` receives the fully
resolved `mid` deep-merged with its own keys, which win. -/
theorem c4_apply_from_witness :
    applyFromF
        (V.dict [("base", V.dict [("data", V.i 1)]),
                 ("mid", V.dict [("$from", V.s "base"), ("extra", V.i 2)])])
        (10 + 1)
        (V.dict [("$from", V.s "mid"), ("k", V.i 3)]) =
      .ok (V.dict [("data", V.i 1), ("extra", V.i 2), ("k", V.i 3)]) :=
  c4_apply_from.1 10
    (V.dict [("base", V.dict [("data", V.i 1)]),
             ("mid", V.dict [("$from", V.s "base"), ("extra", V.i 2)])])
    [("$from", V.s "mid"), ("k", V.i 3)] "mid"
    (V.dict [("$from", V.s "base"), ("extra", V.i 2)])
    [("data", V.i 1), ("extra", V.i 2)]
    (V.dict [("data", V.i 1), ("extra", V.i 2), ("k", V.i 3)])
    rfl rfl rfl rfl

/-- C5: during the pre-trial `$eval` pass, a NameError whose message
mentions the (already renamed) trial placeholder `__trial__` is the only
recovered failure: the node is returned as an `$eval` marker carrying
the substituted text; every other evaluation failure propagates to the
caller unchanged.  The reference-substitution loop `su` and the Python
evaluator `ev` are abstract parameters. -/
theorem c5_apply_eval_trial_deferral
    (su : String → String) (ev : String → Except PyErr V) (fuel : Nat) (v : V) :
    (∀ m, ev (su (pyReplace (pyStr v) "$trial" "__trial__")) =
        .error ⟨.nameError, m⟩ →
      strContains m "__trial__" = true →
      applyEvalF su ev (fuel + 1) (V.dict [("$eval", v)]) =
        .ok (V.dict [("$eval",
          V.s (su (pyReplace (pyStr v) "$trial" "__trial__")))])) ∧
    (∀ e, ev (su (pyReplace (pyStr v) "$trial" "__trial__")) = .error e →
      (e.kind = ErrKind.nameError → strContains e.msg "__trial__" = false) →
      applyEvalF su ev (fuel + 1) (V.dict [("$eval", v)]) = .error e) := by
  have hred : applyEvalF su ev (fuel + 1) (V.dict [("$eval", v)]) =
      (match ev (su (pyReplace (pyStr v) "$trial" "__trial__")) with
       | .ok v2 => applyEvalF su ev fuel v2
       | .error e =>
         if e.kind = ErrKind.nameError ∧
             strContains e.msg "__trial__" = true then
           .ok (V.dict [("$eval",
             V.s (su (pyReplace (pyStr v) "$trial" "__trial__")))])
         else .error e) := rfl
  constructor
  · intro m h1 h2
    rw [hred, h1]
    exact if_pos ⟨rfl, h2⟩
  · intro e h1 h2
    rw [hred, h1]
    exact if_neg (fun hand => by rw [h2 hand.1] at hand; cases hand.2)

/-- C5 witness: with an evaluator that reports the trial placeholder as
an undefined name, the node is deferred as a marker carrying the
substituted text; with an evaluator raising a KeyError, the error
propagates. -/
theorem c5_apply_eval_trial_deferral_witness :
    applyEvalF (fun str => str)
        (fun _ => .error ⟨.nameError, "name __trial__ is not defined"⟩) 3
        (V.dict [("$eval", V.s "$trial.algorithm.x * 2")]) =
      .ok (V.dict [("$eval", V.s "__trial__.algorithm.x * 2")]) ∧
    applyEvalF (fun str => str)
        (fun _ => .error ⟨.keyError, "missing"⟩) 3
        (V.dict [("$eval", V.s "$trial.algorithm.x * 2")]) =
      .error ⟨.keyError, "missing"⟩ :=
  ⟨(c5_apply_eval_trial_deferral (fun str => str)
      (fun _ => .error ⟨.nameError, "name __trial__ is not defined"⟩) 2
      (V.s "$trial.algorithm.x * 2")).1
      "name __trial__ is not defined" rfl rfl,
   (c5_apply_eval_trial_deferral (fun str => str)
      (fun _ => .error ⟨.keyError, "missing"⟩) 2
      (V.s "$trial.algorithm.x * 2")).2
      ⟨.keyError, "missing"⟩ rfl (fun hk => by cases hk)⟩

/-- Appending under a key stores the value at the end of the list held
under that key (a fresh singleton for a new key). -/
theorem lvlookup_gvStep_self (acc : List (String × List V)) (k : String) (v : V) :
    lvlookup (gvStep acc k v) k = some ((lvlookup acc k).getD [] ++ [v]) := by
  induction acc with
  | nil => simp [gvStep, lvlookup]
  | cons kv rest ih =>
    obtain ⟨k1, vs⟩ := kv
    by_cases hk : k1 = k
    · subst hk
      simp [gvStep, lvlookup]
    · simp [gvStep, hk, lvlookup, ih]

/-- Appending under a key leaves every other key unchanged. -/
theorem lvlookup_gvStep_ne (acc : List (String × List V)) {k k2 : String} (v : V)
    (h : k2 ≠ k) : lvlookup (gvStep acc k v) k2 = lvlookup acc k2 := by
  induction acc with
  | nil =>
    simp only [gvStep, lvlookup]
    rw [if_neg (fun he : k = k2 => h he.symm)]
  | cons kv rest ih =>
    obtain ⟨k1, vs⟩ := kv
    by_cases hk : k1 = k
    · subst hk
      simp only [gvStep, if_pos rfl, lvlookup]
      rw [if_neg (fun he : k1 = k2 => h he.symm),
        if_neg (fun he : k1 = k2 => h he.symm)]
    · simp only [gvStep, if_neg hk, lvlookup, ih]

/-- Folding one document into the accumulator appends, for each key of
the document, its (unique) value. -/
theorem lvlookup_gvDoc (doc : Dict) :
    ∀ (acc : List (String × List V)) (k : String), (doc.map Prod.fst).Nodup →
      lvlookup (gvDoc acc doc) k =
        match dlookup doc k with
        | some v => some ((lvlookup acc k).getD [] ++ [v])
        | none => lvlookup acc k := by
  induction doc with
  | nil => intro acc k _; rfl
  | cons kv rest ih =>
    intro acc k hnd
    obtain ⟨k1, v1⟩ := kv
    simp only [List.map_cons, List.nodup_cons] at hnd
    obtain ⟨hnotin, hndrest⟩ := hnd
    by_cases hk : k1 = k
    · subst hk
      have hrest : dlookup rest k1 = none := dlookup_eq_none_of_not_mem hnotin
      simp only [gvDoc, dlookup, if_pos rfl]
      rw [ih (gvStep acc k1 v1) k1 hndrest, hrest, lvlookup_gvStep_self]
      simp
    · simp only [gvDoc, dlookup, if_neg hk]
      rw [ih (gvStep acc k1 v1) k hndrest,
        lvlookup_gvStep_ne acc v1 (fun he : k = k1 => hk he.symm)]

/-- Folding a list of documents: each key accumulates the ordered list
of its values, one per document holding the key, in document order. -/
theorem lvlookup_gvDocs (docs : List Dict) :
    ∀ (acc : List (String × List V)) (k : String),
      (∀ d ∈ docs, (d.map Prod.fst).Nodup) →
      lvlookup (gvDocs acc docs) k =
        match lvlookup acc k, docs.filterMap (fun d => dlookup d k) with
        | some vs, vals => some (vs ++ vals)
        | none, [] => none
        | none, v :: vals => some (v :: vals) := by
  induction docs with
  | nil =>
    intro acc k _
    cases h : lvlookup acc k <;> simp [gvDocs, h]
  | cons doc docs ih =>
    intro acc k hnd
    have hdoc := lvlookup_gvDoc doc acc k (hnd doc (List.mem_cons_self doc docs))
    have hrec := ih (gvDoc acc doc) k (fun d hd => hnd d (List.mem_cons_of_mem doc hd))
    simp only [gvDocs]
    rw [hrec, hdoc]
    cases hlk : dlookup doc k with
    | some v =>
      cases hacc : lvlookup acc k <;>
        simp [List.filterMap_cons, hlk, hacc]
    | none =>
      cases hacc : lvlookup acc k <;>
        simp [List.filterMap_cons, hlk, hacc]

/-- Lookup commutes with the final `Versions` wrapping. -/
theorem dlookup_wrap (l : List (String × List V)) (k : String) :
    dlookup (l.map (fun p => (p.1, V.versions p.2))) k =
      (lvlookup l k).map V.versions := by
  induction l with
  | nil => rfl
  | cons kv rest ih =>
    obtain ⟨k1, vs⟩ := kv
    by_cases hk : k1 = k
    · subst hk
      simp [dlookup, lvlookup]
    · simp [dlookup, lvlookup, hk, ih]

/-- C6: the claim that keys supplied by exactly one document are
unwrapped is wrong on the code: `generate_versions` keeps the
`Versions` wrapper also around single values — only `Versions.__repr__`
displays such a value bare. -/
theorem c6_counterexample :
    dlookup (generateVersions [[("a", V.i 1)]]) "a" =
      some (V.versions [V.i 1]) ∧
    V.versions [V.i 1] ≠ V.i 1 :=
  ⟨rfl, fun h => by cases h⟩

/-- C6 (amended): version aggregation maps each top-level key to the
`Versions` of that key's values, one per document containing the key,
in document order — including keys supplied by exactly one document,
whose value stays wrapped in a length-one `Versions`; only the `repr`
of a length-one `Versions` displays the sole element bare. -/
theorem c6_generate_versions :
    (∀ (docs : List Dict) (k : String),
      (∀ d ∈ docs, (d.map Prod.fst).Nodup) →
      dlookup (generateVersions docs) k =
        match docs.filterMap (fun d => dlookup d k) with
        | [] => none
        | v :: vals => some (V.versions (v :: vals))) ∧
    (∀ (r : V → String) (v : V), versionsRepr r [v] = r v) := by
  constructor
  · intro docs k hnd
    unfold generateVersions
    rw [dlookup_wrap, lvlookup_gvDocs docs [] k hnd]
    cases h : docs.filterMap (fun d => dlookup d k) <;> simp [lvlookup]
  · intro r v
    rfl

/-- C6 witness: two documents supplying `a` and one supplying `b` give a
two-element `Versions` under `a` and a one-element (still wrapped)
`Versions` under `b`. -/
theorem c6_generate_versions_witness :
    dlookup (generateVersions [[("a", V.i 1)], [("a", V.i 2), ("b", V.i 3)]]) "a" =
      some (V.versions [V.i 1, V.i 2]) ∧
    dlookup (generateVersions [[("a", V.i 1)], [("a", V.i 2), ("b", V.i 3)]]) "b" =
      some (V.versions [V.i 3]) ∧
    versionsRepr (fun _ => "3") [V.i 3] = "3" :=
  ⟨c6_generate_versions.1 [[("a", V.i 1)], [("a", V.i 2), ("b", V.i 3)]] "a"
      (by decide),
   c6_generate_versions.1 [[("a", V.i 1)], [("a", V.i 2), ("b", V.i 3)]] "b"
      (by decide),
   c6_generate_versions.2 (fun _ => "3") (V.i 3)⟩

/-- The loop of the heap-level `update_nested_dict` hands back the very
value it was given whenever that value points to a mapping. -/
theorem unh_ref :
    ∀ fuel entries h d h2 r, unh fuel h (HV.ref d) entries = some (h2, r) →
      r = HV.ref d := by
  intro fuel
  induction fuel with
  | zero =>
    intro entries h d h2 r hr
    simp [unh] at hr
  | succ f ih =>
    intro entries h d h2 r hr
    cases entries with
    | nil =>
      simp only [unh, Option.some.injEq, Prod.mk.injEq] at hr
      exact hr.2.symm
    | cons kv rest =>
      obtain ⟨key, value⟩ := kv
      simp only [unh] at hr
      cases hgd : hget h d with
      | none => rw [hgd] at hr; cases hr
      | some dd =>
        rw [hgd] at hr
        cases value with
        | ref vAddr =>
          repeat'
            first
              | exact ih _ _ _ _ _ hr
              | cases hr
              | split at hr
        | num n => exact ih _ _ _ _ _ hr
        | str str1 => exact ih _ _ _ _ _ hr

/-- C7: `update_nested_dict` does not build a new structure: the claim
fails because the function mutates the base in place.  On the heap of
the doctest in utils.py, merging the overlay into the base changes the
mapping object at address 1 (a sub-structure of the base) and returns
the base pointer itself. -/
theorem c7_counterexample :
    updateNestedDictH 10
        [[("root", HV.ref 1)],
         [("smth", HV.num 10), ("smth_else", HV.num 20)],
         [("root", HV.ref 3)],
         [("smth", HV.ref 4)],
         [("hello", HV.str "world")]]
        (HV.ref 0) 2 =
      some ([[("root", HV.ref 1)],
             [("smth", HV.ref 5), ("smth_else", HV.num 20)],
             [("root", HV.ref 3)],
             [("smth", HV.ref 4)],
             [("hello", HV.str "world")],
             [("hello", HV.str "world")]], HV.ref 0) ∧
    hget [[("root", HV.ref 1)],
          [("smth", HV.ref 5), ("smth_else", HV.num 20)],
          [("root", HV.ref 3)],
          [("smth", HV.ref 4)],
          [("hello", HV.str "world")],
          [("hello", HV.str "world")]] 1 ≠
      hget [[("root", HV.ref 1)],
            [("smth", HV.num 10), ("smth_else", HV.num 20)],
            [("root", HV.ref 3)],
            [("smth", HV.ref 4)],
            [("hello", HV.str "world")]] 1 :=
  ⟨rfl, by decide⟩

/-- C7 (amended): `update_nested_dict` applied to a mapping returns the
very same object (the base pointer), mutated in place through the heap,
rather than a new structure. -/
theorem c7_update_nested_aliases (fuel : Nat) (h : Heap) (d : Nat) (upd : Nat)
    (h2 : Heap) (r : HV)
    (hr : updateNestedDictH fuel h (HV.ref d) upd = some (h2, r)) :
    r = HV.ref d := by
  unfold updateNestedDictH at hr
  cases hu : hget h upd with
  | none => rw [hu] at hr; cases hr
  | some entries =>
    rw [hu] at hr
    exact unh_ref fuel entries h d h2 r hr

/-- C7 witness: on the doctest heap, the returned value is the base
pointer. -/
theorem c7_update_nested_aliases_witness :
    updateNestedDictH 10
        [[("root", HV.ref 1)],
         [("smth", HV.num 10), ("smth_else", HV.num 20)],
         [("root", HV.ref 3)],
         [("smth", HV.ref 4)],
         [("hello", HV.str "world")]]
        (HV.ref 0) 2 =
      some ([[("root", HV.ref 1)],
             [("smth", HV.ref 5), ("smth_else", HV.num 20)],
             [("root", HV.ref 3)],
             [("smth", HV.ref 4)],
             [("hello", HV.str "world")],
             [("hello", HV.str "world")]], HV.ref 0) ∧
    HV.ref 0 = HV.ref 0 :=
  ⟨rfl,
   c7_update_nested_aliases 10
     [[("root", HV.ref 1)],
      [("smth", HV.num 10), ("smth_else", HV.num 20)],
      [("root", HV.ref 3)],
      [("smth", HV.ref 4)],
      [("hello", HV.str "world")]] 0 2
     [[("root", HV.ref 1)],
      [("smth", HV.ref 5), ("smth_else", HV.num 20)],
      [("root", HV.ref 3)],
      [("smth", HV.ref 4)],
      [("hello", HV.str "world")],
      [("hello", HV.str "world")]] (HV.ref 0) rfl⟩

end Runtool
